import Mathlib

/-!
# DocFoundry chat page: scope selection, transcript and transport

A shallow embedding of `frontend/pages/chat.js`: the transport adapter
`apiFetch` and `pretty`, the state cells of `ChatPage` with its `useEffect`
cascade, `send`, and the "New chat" reset. JavaScript values are modelled as
far as the page inspects backend responses: truthiness, property reads,
ToString, ToNumber, `toFixed(2)`, `trim`, `JSON.parse` and `JSON.stringify`.

Conventions. A selection or token that is unset is the empty string, as in the
source. Strings are sequences of Unicode scalar values. A finite Number is
kept as sign, mantissa and binary exponent, so that every conversion is exact.
The JSX view, the login and register forms and the health button are not
modelled; the text of engine-raised TypeErrors follows V8.

A page state is live as long as `renderError` is `none`. The one state updater
of the page that can throw, the one that builds the assistant turn from the
response, is evaluated by React while rendering; its failure unmounts the
component and is recorded there.
-/

namespace DocFoundry

/-- A JavaScript Number: NaN, an infinity, or the finite value
`(-1)^neg * m * 2^e` (every IEEE-754 double has this form). -/
inductive JSNum where
  | nan
  | inf (neg : Bool)
  | fin (neg : Bool) (m : Nat) (e : Int)
deriving DecidableEq, Repr

/-- Decimal digits of a natural number, most significant first. -/
def digitsAux : Nat → Nat → List Char → List Char
  | 0, _, acc => acc
  | fuel + 1, n, acc =>
    let acc1 := Char.ofNat (48 + n % 10) :: acc
    if n < 10 then acc1 else digitsAux fuel (n / 10) acc1

def natDigits (n : Nat) : List Char := digitsAux (n + 1) n []

/-- Numerator and denominator of the magnitude `m * 2^e`. -/
def dyadicFrac (m : Nat) (e : Int) : Nat × Nat :=
  if 0 ≤ e then (m * 2 ^ e.toNat, 1) else (m, 2 ^ (-e).toNat)

def bitLogAux : Nat → Nat → Nat
  | 0, _ => 0
  | fuel + 1, n => if n < 2 then 0 else bitLogAux fuel (n / 2) + 1

/-- Integer part of log2 of a positive natural number. -/
def bitLog (n : Nat) : Nat := bitLogAux n n

/-- Integer part of log2 of the positive rational `n / d`. -/
def floorLog2 (n d : Nat) : Int :=
  let l : Int := (bitLog n : Int) - (bitLog d : Int)
  let ge : Bool := if 0 ≤ l then decide (d * 2 ^ l.toNat ≤ n) else decide (d ≤ n * 2 ^ (-l).toNat)
  if ge then l else l - 1

/-- Nearest double to the non-negative rational `n / d` (ties to even), as a
mantissa and binary exponent; `none` when the result overflows to Infinity. -/
def roundToDouble (n d : Nat) : Option (Nat × Int) :=
  if n = 0 ∨ d = 0 then some (0, 0) else
  let e : Int := max (floorLog2 n d - 52) (-1074)
  let N := if 0 ≤ e then n else n * 2 ^ (-e).toNat
  let D := if 0 ≤ e then d * 2 ^ e.toNat else d
  let m0 := N / D
  let r := N % D
  let m := if D < 2 * r ∨ (2 * r = D ∧ m0 % 2 = 1) then m0 + 1 else m0
  let (m, e) := if m = 2 ^ 53 then (2 ^ 52, e + 1) else (m, e)
  if 971 < e then none else some (m, e)


/-- Smallest `j ≥ j0` with `d ≤ n * 10^j` (searching at most `fuel` steps). -/
def leadShift : Nat → Nat → Nat → Nat → Nat
  | 0, _, _, j => j
  | fuel + 1, n, d, j => if d ≤ n * 10 ^ j then j else leadShift fuel n d (j + 1)

/-- The decimal exponent `n0` of a positive rational: `10^(n0-1) ≤ n/d < 10^n0`. -/
def decExp (n d : Nat) : Int :=
  if d ≤ n then ((natDigits (n / d)).length : Int) else 1 - (leadShift d n d 1 : Int)

/-- Numerator and denominator of `s * 10^x`. -/
def decFrac (s : Nat) (x : Int) : Nat × Nat :=
  if 0 ≤ x then (s * 10 ^ x.toNat, 1) else (s, 10 ^ (-x).toNat)

/-- Search for the shortest digit string `s` (of `k` digits) and exponent `n`
with `s * 10^(n-k)` rounding to the double `tgt = n/d`; `k` runs upward. -/
def shortestAux : Nat → Nat → Nat → Nat → Int → (Nat × Int) → Nat × Nat × Int
  | 0, k, n, d, n0, _ => ((n * 10 ^ k) / d, k, n0)
  | fuel + 1, k, n, d, n0, tgt =>
    let x : Int := n0 - (k : Int)
    let N := if 0 ≤ x then n else n * 10 ^ (-x).toNat
    let D := if 0 ≤ x then d * 10 ^ x.toNat else d
    let lo := N / D
    let r := N % D
    let hi := lo + 1
    let okLo : Bool :=
      decide (10 ^ (k - 1) ≤ lo) && decide (roundToDouble (decFrac lo x).1 (decFrac lo x).2 = some tgt)
    let hiS := if hi = 10 ^ k then 10 ^ (k - 1) else hi
    let hiN : Int := if hi = 10 ^ k then n0 + 1 else n0
    let okHi : Bool :=
      decide (roundToDouble (decFrac hi x).1 (decFrac hi x).2 = some tgt)
    if okLo && okHi then
      if 2 * r < D ∨ (2 * r = D ∧ lo % 2 = 0) then (lo, k, n0) else (hiS, k, hiN)
    else if okLo then (lo, k, n0)
    else if okHi then (hiS, k, hiN)
    else shortestAux fuel (k + 1) n d n0 tgt

def zeros (k : Nat) : List Char := List.replicate k '0'

/-- Text of a positive finite double per Number::toString (radix 10), from its
shortest digits `s` (`k` of them) and decimal exponent `n`. -/
def formatShortest (s k : Nat) (n : Int) : List Char :=
  let ds := natDigits s
  if (k : Int) ≤ n ∧ n ≤ 21 then ds ++ zeros (n.toNat - k)
  else if 0 < n ∧ n ≤ 21 then ds.take n.toNat ++ '.' :: ds.drop n.toNat
  else if -6 < n ∧ n ≤ 0 then '0' :: '.' :: (zeros (-n).toNat ++ ds)
  else
    let x := n - 1
    let ex := (if 0 < x then '+' else '-') :: natDigits x.natAbs
    if k = 1 then ds ++ 'e' :: ex
    else ds.take 1 ++ '.' :: (ds.drop 1 ++ 'e' :: ex)

/-- Number::toString for the magnitude `m * 2^e` (nonzero). -/
def posToString (m : Nat) (e : Int) : List Char :=
  let f := dyadicFrac m e
  match roundToDouble f.1 f.2 with
  | none => "Infinity".toList
  | some tgt =>
    let g := dyadicFrac tgt.1 tgt.2
    if g.1 = 0 then ['0'] else
    let r := shortestAux 17 1 g.1 g.2 (decExp g.1 g.2) tgt
    formatShortest r.1 r.2.1 r.2.2

/-- The text of a Number (ToString applied to a Number). -/
def numToString : JSNum → String
  | .nan => "NaN"
  | .inf false => "Infinity"
  | .inf true => "-Infinity"
  | .fin neg m e =>
    if m = 0 then "0"
    else if neg then String.mk ('-' :: posToString m e) else String.mk (posToString m e)

/-- The call `x.toFixed(2)` on a Number. -/
def toFixed2 : JSNum → String
  | .fin neg m e =>
    let f := dyadicFrac m e
    if 10 ^ 21 * f.2 ≤ f.1 then numToString (.fin neg m e)
    else
      let n := (f.1 * 200 + f.2) / (2 * f.2)
      let ds := natDigits n
      let ds := zeros (3 - ds.length) ++ ds
      let body := ds.take (ds.length - 2) ++ '.' :: ds.drop (ds.length - 2)
      if neg ∧ m ≠ 0 then String.mk ('-' :: body) else String.mk body
  | x => numToString x


/-- The code points that `String.prototype.trim` and `Number(...)` strip:
WhiteSpace and LineTerminator of the language grammar. -/
def isJSWhitespace (c : Char) : Bool :=
  let n := c.toNat
  n = 9 || n = 10 || n = 11 || n = 12 || n = 13 || n = 32 || n = 160 || n = 5760 ||
  (8192 ≤ n && n ≤ 8202) || n = 8232 || n = 8233 || n = 8239 || n = 8287 || n = 12288 ||
  n = 65279

def trimChars (cs : List Char) : List Char :=
  ((cs.dropWhile isJSWhitespace).reverse.dropWhile isJSWhitespace).reverse

/-- The call `s.trim()`. -/
def jsTrim (s : String) : String := String.mk (trimChars s.data)

def digitVal (radix : Nat) (c : Char) : Option Nat :=
  let n := c.toNat
  let v := if 48 ≤ n ∧ n ≤ 57 then n - 48
    else if 97 ≤ n ∧ n ≤ 122 then n - 87
    else if 65 ≤ n ∧ n ≤ 90 then n - 55
    else 99
  if v < radix then some v else none

/-- Value of a digit string in the given radix, `none` if a non-digit occurs. -/
def digitsVal (radix : Nat) : List Char → Nat → Option Nat
  | [], acc => some acc
  | c :: cs, acc =>
    match digitVal radix c with
    | some v => digitsVal radix cs (acc * radix + v)
    | none => none

def isDecDigit (c : Char) : Bool := 48 ≤ c.toNat && c.toNat ≤ 57

/-- The Number denoted by sign, decimal digit value and power of ten. -/
def mkDecimal (neg : Bool) (s : Nat) (x : Int) : JSNum :=
  let f := decFrac s x
  match roundToDouble f.1 f.2 with
  | none => .inf neg
  | some (m, e) => .fin neg m e

/-- An unsigned decimal literal of StringToNumber: digits, optional fraction,
optional exponent; at least one digit in the mantissa. -/
def parseUnsignedDecimal (neg : Bool) (cs : List Char) : Option JSNum :=
  let ip := cs.takeWhile isDecDigit
  let r1 := cs.dropWhile isDecDigit
  let hasDot := r1.head? = some '.'
  let r2 := if hasDot then r1.drop 1 else r1
  let fp := if hasDot then r2.takeWhile isDecDigit else []
  let r3 := if hasDot then r2.dropWhile isDecDigit else r2
  if ip.isEmpty ∧ fp.isEmpty then none else
  let mant := (digitsVal 10 (ip ++ fp) 0).getD 0
  match r3 with
  | [] => some (mkDecimal neg mant (-(fp.length : Int)))
  | c :: r4 =>
    if c = 'e' ∨ c = 'E' then
      let eneg := r4.head? = some '-'
      let r5 := if r4.head? = some '-' ∨ r4.head? = some '+' then r4.drop 1 else r4
      if r5.isEmpty then none else
      match digitsVal 10 r5 0 with
      | none => none
      | some ev =>
        let x : Int := if eneg then -(ev : Int) else (ev : Int)
        some (mkDecimal neg mant (x - (fp.length : Int)))
    else none

def parseRadix (radix : Nat) (cs : List Char) : JSNum :=
  if cs.isEmpty then .nan else
  match digitsVal radix cs 0 with
  | none => .nan
  | some v => mkDecimal false v 0

/-- StringToNumber: the Number a string converts to under `Number(s)`. -/
def stringToNumber (s : String) : JSNum :=
  let cs := trimChars s.data
  match cs with
  | [] => .fin false 0 0
  | '0' :: 'x' :: r => parseRadix 16 r
  | '0' :: 'X' :: r => parseRadix 16 r
  | '0' :: 'o' :: r => parseRadix 8 r
  | '0' :: 'O' :: r => parseRadix 8 r
  | '0' :: 'b' :: r => parseRadix 2 r
  | '0' :: 'B' :: r => parseRadix 2 r
  | c :: r =>
    let neg := c = '-'
    let body := if c = '-' ∨ c = '+' then r else cs
    if body = "Infinity".data then .inf neg
    else (parseUnsignedDecimal neg body).getD .nan


/-- A JavaScript value as `JSON.parse` can produce it, plus `undefined`
(the result of reading a missing property). Object fields are in property
enumeration order. -/
inductive JSVal where
  | undefined
  | null
  | bool (b : Bool)
  | num (x : JSNum)
  | str (s : String)
  | arr (xs : List JSVal)
  | obj (fields : List (String × JSVal))

/-- A thrown Error object: its `name` and `message`. -/
structure JSError where
  name : String
  message : String
deriving DecidableEq, Repr

/-- A computation that may throw. -/
abbrev JS (α : Type) := Except JSError α

def typeError (msg : String) : JSError := ⟨"TypeError", msg⟩

/-- Text of `String(e)` for an Error object (Error.prototype.toString). -/
def errorToString (e : JSError) : String :=
  if e.name = "" then e.message
  else if e.message = "" then e.name
  else e.name ++ ": " ++ e.message

/-- The expression `e?.message || String(e)` for a caught Error object. -/
def errorText (e : JSError) : String :=
  if e.message ≠ "" then e.message else errorToString e

/-- ToBoolean: truthiness. -/
def toBoolean : JSVal → Bool
  | .undefined => false
  | .null => false
  | .bool b => b
  | .num .nan => false
  | .num (.inf _) => true
  | .num (.fin _ m _) => decide (m ≠ 0)
  | .str s => decide (s ≠ "")
  | .arr _ => true
  | .obj _ => true

/-- The operator `a || b`. -/
def jsOr (a b : JSVal) : JSVal := if toBoolean a then a else b

/-- The test `v != null`. -/
def notNullish : JSVal → Bool
  | .undefined => false
  | .null => false
  | _ => true

def lookupField (k : String) : List (String × JSVal) → JSVal
  | [] => .undefined
  | (k1, v) :: fs => if k1 = k then v else lookupField k fs

def hasField (k : String) (fs : List (String × JSVal)) : Bool := fs.any (fun p => p.1 = k)

/-- Property read `v.k` for a key `k` that no built-in prototype defines (all
keys this program reads are such): own data property of an object, `undefined`
on any other non-nullish value, TypeError on `null` and `undefined`. -/
def getProp (v : JSVal) (k : String) : JS JSVal :=
  match v with
  | .undefined => .error (typeError ("Cannot read properties of undefined (reading " ++ "\x27" ++ k ++ "\x27)"))
  | .null => .error (typeError ("Cannot read properties of null (reading " ++ "\x27" ++ k ++ "\x27)"))
  | .obj fs => .ok (lookupField k fs)
  | _ => .ok .undefined

/-- Optional property read `v?.k`. -/
def getPropOpt (v : JSVal) (k : String) : JSVal :=
  match v with
  | .obj fs => lookupField k fs
  | _ => .undefined

/-- Text of one element inside `Array.prototype.join`: nullish elements give
the empty string, any other element its ToString `s`. -/
def joinElem (x : JSVal) (s : JS String) : JS String :=
  match x with
  | .undefined => .ok ""
  | .null => .ok ""
  | _ => s

mutual
/-- ToString of a value (as a template literal applies it). A plain object
carrying its own `toString` key has no callable conversion and throws. -/
def toStr : JSVal → JS String
  | .undefined => .ok "undefined"
  | .null => .ok "null"
  | .bool b => .ok (if b then "true" else "false")
  | .num x => .ok (numToString x)
  | .str s => .ok s
  | .arr xs => joinComma xs
  | .obj fs =>
    if hasField "toString" fs then .error (typeError "Cannot convert object to primitive value")
    else .ok "[object Object]"
/-- The call `xs.join(",")`. -/
def joinComma : List JSVal → JS String
  | [] => .ok ""
  | x :: rest =>
    match joinElem x (toStr x), rest, joinComma rest with
    | .error e, _, _ => .error e
    | .ok s, [], _ => .ok s
    | .ok _, _ :: _, .error e => .error e
    | .ok s, _ :: _, .ok t => .ok (s ++ "," ++ t)
end

/-- ToNumber (the call `Number(v)`). Arrays and objects convert through their
string form. -/
def toNumber : JSVal → JS JSNum
  | .undefined => .ok .nan
  | .null => .ok (.fin false 0 0)
  | .bool b => .ok (.fin false (if b then 1 else 0) 0)
  | .num x => .ok x
  | .str s => .ok (stringToNumber s)
  | v =>
    match toStr v with
    | .error e => .error e
    | .ok s => .ok (stringToNumber s)


def bslash : Char := Char.ofNat 92

def dquote : Char := Char.ofNat 34

def hexDigit (n : Nat) : Char := if n < 10 then Char.ofNat (48 + n) else Char.ofNat (87 + n)

/-- Four lowercase hexadecimal digits of a code unit. -/
def hex4 (n : Nat) : List Char :=
  [hexDigit (n / 4096 % 16), hexDigit (n / 256 % 16), hexDigit (n / 16 % 16), hexDigit (n % 16)]

/-- QuoteJSONString on the characters of a string (without the outer quotes). -/
def quoteChars : List Char → List Char
  | [] => []
  | c :: cs =>
    let n := c.toNat
    let esc : List Char :=
      if n = 8 then [bslash, 'b']
      else if n = 9 then [bslash, 't']
      else if n = 10 then [bslash, 'n']
      else if n = 12 then [bslash, 'f']
      else if n = 13 then [bslash, 'r']
      else if n = 34 then [bslash, dquote]
      else if n = 92 then [bslash, bslash]
      else if n < 32 then bslash :: 'u' :: hex4 n
      else [c]
    esc ++ quoteChars cs

def quoteJSON (s : String) : String :=
  String.mk (dquote :: (quoteChars s.data ++ [dquote]))

def joinWith (sep : String) : List String → String
  | [] => ""
  | [s] => s
  | s :: t :: rest => s ++ sep ++ joinWith sep (t :: rest)

def isFiniteNum : JSNum → Bool
  | .fin _ _ _ => true
  | _ => false

/-- Wrap serialized items in brackets, on one line when `gap` is empty and one
item a line at indentation `ind` otherwise. -/
def wrapItems (gap stepback ind : String) (op cl : String) (items : List String) : String :=
  if items.isEmpty then op ++ cl
  else if gap = "" then op ++ joinWith "," items ++ cl
  else op ++ "\n" ++ ind ++ joinWith (",\n" ++ ind) items ++ "\n" ++ stepback ++ cl

mutual
/-- SerializeJSONProperty of `JSON.stringify(v, null, gap)` at indentation
`indent`; `none` stands for `undefined` (nothing to serialize). -/
def serialize (gap indent : String) : JSVal → Option String
  | .undefined => none
  | .null => some "null"
  | .bool b => some (if b then "true" else "false")
  | .num x => some (if isFiniteNum x then numToString x else "null")
  | .str s => some (quoteJSON s)
  | .arr xs => some (wrapItems gap indent (indent ++ gap) "[" "]" (serializeElems gap (indent ++ gap) xs))
  | .obj fs => some (wrapItems gap indent (indent ++ gap) "\x7b" "\x7d" (serializeFields gap (indent ++ gap) fs))
def serializeElems (gap indent : String) : List JSVal → List String
  | [] => []
  | x :: xs => (serialize gap indent x).getD "null" :: serializeElems gap indent xs
def serializeFields (gap indent : String) : List (String × JSVal) → List String
  | [] => []
  | (k, v) :: fs =>
    match serialize gap indent v with
    | none => serializeFields gap indent fs
    | some s => (quoteJSON k ++ (if gap = "" then ":" else ": ") ++ s) :: serializeFields gap indent fs
end

/-- The call `JSON.stringify(v)`. -/
def jsonStringify (v : JSVal) : Option String := serialize "" "" v

/-- Source function `pretty(obj)`: `JSON.stringify(obj, null, 2)`. On the values
of this model the serializer cannot throw, so the `catch` arm is never taken;
`undefined` has no serialization and is returned as such. -/
def pretty (obj : JSVal) : JSVal :=
  match serialize "  " "" obj with
  | some s => .str s
  | none => .undefined

def isJSONSpace (c : Char) : Bool :=
  c.toNat = 32 || c.toNat = 9 || c.toNat = 10 || c.toNat = 13

def skipWs (cs : List Char) : List Char := cs.dropWhile isJSONSpace

/-- The array index a property key denotes, if it is one (canonical decimal
below 2^32 - 1); such keys enumerate first, in ascending order. -/
def arrayIndex (k : String) : Option Nat :=
  let cs := k.data
  if cs.isEmpty ∨ ¬ cs.all isDecDigit ∨ (cs.head? = some '0' ∧ cs.length ≠ 1) then none
  else
    match digitsVal 10 cs 0 with
    | some v => if v < 4294967295 then some v else none
    | none => none

/-- Insert a new key at its place in property enumeration order. -/
def insertField (k : String) (v : JSVal) : List (String × JSVal) → List (String × JSVal)
  | [] => [(k, v)]
  | (k1, v1) :: fs =>
    match arrayIndex k, arrayIndex k1 with
    | some i, some j => if i < j then (k, v) :: (k1, v1) :: fs else (k1, v1) :: insertField k v fs
    | some _, none => (k, v) :: (k1, v1) :: fs
    | none, _ => (k1, v1) :: insertField k v fs

def replaceField (k : String) (v : JSVal) : List (String × JSVal) → List (String × JSVal)
  | [] => []
  | (k1, v1) :: fs => if k1 = k then (k1, v) :: fs else (k1, v1) :: replaceField k v fs

/-- CreateDataProperty on a plain object. -/
def setField (fs : List (String × JSVal)) (k : String) (v : JSVal) : List (String × JSVal) :=
  if hasField k fs then replaceField k v fs else insertField k v fs

def hex4Val (a b c d : Char) : Option Nat :=
  match digitVal 16 a, digitVal 16 b, digitVal 16 c, digitVal 16 d with
  | some w, some x, some y, some z => some (w * 4096 + x * 256 + y * 16 + z)
  | _, _, _, _ => none

def isHighSurrogate (u : Nat) : Bool := 55296 ≤ u && u ≤ 56319
def isLowSurrogate (u : Nat) : Bool := 56320 ≤ u && u ≤ 57343

/-- Body of a JSON string after its opening quote: the decoded characters and
the rest of the input after the closing quote. An escaped surrogate pair yields
its code point; an unpaired surrogate escape, which a string of this model
cannot hold, is read as U+FFFD. The fuel
bounds the characters consumed. -/
def parseStringBody : Nat → List Char → List Char → Option (String × List Char)
  | 0, _, _ => none
  | _, [], _ => none
  | fuel + 1, c :: cs, acc =>
    if c.toNat = 34 then some (String.mk acc.reverse, cs)
    else if c.toNat = 92 then
      match cs with
      | 'u' :: a :: b :: c1 :: d :: rest =>
        match hex4Val a b c1 d with
        | none => none
        | some u =>
          if isHighSurrogate u then
            let low : Option Nat :=
              match rest with
              | b1 :: 'u' :: a2 :: b2 :: c2 :: d2 :: _ =>
                if b1.toNat = 92 then hex4Val a2 b2 c2 d2 else none
              | _ => none
            match low with
            | some l =>
              if isLowSurrogate l then
                parseStringBody fuel (rest.drop 6)
                  (Char.ofNat (65536 + (u - 55296) * 1024 + (l - 56320)) :: acc)
              else parseStringBody fuel rest (Char.ofNat 65533 :: acc)
            | none => parseStringBody fuel rest (Char.ofNat 65533 :: acc)
          else if isLowSurrogate u then parseStringBody fuel rest (Char.ofNat 65533 :: acc)
          else parseStringBody fuel rest (Char.ofNat u :: acc)
      | e :: rest =>
        let n := e.toNat
        if n = 34 ∨ n = 92 ∨ n = 47 then parseStringBody fuel rest (e :: acc)
        else if e = 'b' then parseStringBody fuel rest (Char.ofNat 8 :: acc)
        else if e = 'f' then parseStringBody fuel rest (Char.ofNat 12 :: acc)
        else if e = 'n' then parseStringBody fuel rest (Char.ofNat 10 :: acc)
        else if e = 'r' then parseStringBody fuel rest (Char.ofNat 13 :: acc)
        else if e = 't' then parseStringBody fuel rest (Char.ofNat 9 :: acc)
        else none
      | [] => none
    else if c.toNat < 32 then none
    else parseStringBody fuel cs (c :: acc)

/-- A JSON number literal at the head of the input. -/
def parseJSONNumber (cs : List Char) : Option (JSNum × List Char) :=
  let neg := cs.head? = some '-'
  let r0 := if neg then cs.drop 1 else cs
  let ip := r0.takeWhile isDecDigit
  let r1 := r0.dropWhile isDecDigit
  if ip.isEmpty ∨ (ip.head? = some '0' ∧ ip.length ≠ 1) then none else
  let hasDot := r1.head? = some '.'
  let fp := if hasDot then (r1.drop 1).takeWhile isDecDigit else []
  let r2 := if hasDot then (r1.drop 1).dropWhile isDecDigit else r1
  if hasDot ∧ fp.isEmpty then none else
  let mant := (digitsVal 10 (ip ++ fp) 0).getD 0
  let hasExp := r2.head? = some 'e' ∨ r2.head? = some 'E'
  if hasExp then
    let r3 := r2.drop 1
    let eneg := r3.head? = some '-'
    let r4 := if r3.head? = some '-' ∨ r3.head? = some '+' then r3.drop 1 else r3
    let ed := r4.takeWhile isDecDigit
    if ed.isEmpty then none else
    let ev := (digitsVal 10 ed 0).getD 0
    let x : Int := if eneg then -(ev : Int) else (ev : Int)
    some (mkDecimal neg mant (x - (fp.length : Int)), r4.dropWhile isDecDigit)
  else some (mkDecimal neg mant (-(fp.length : Int)), r2)

mutual
/-- One JSON value at the head of the input (after optional whitespace). -/
def parseValue : Nat → List Char → Option (JSVal × List Char)
  | 0, _ => none
  | fuel + 1, cs =>
    match skipWs cs with
    | 'n' :: 'u' :: 'l' :: 'l' :: r => some (.null, r)
    | 't' :: 'r' :: 'u' :: 'e' :: r => some (.bool true, r)
    | 'f' :: 'a' :: 'l' :: 's' :: 'e' :: r => some (.bool false, r)
    | c :: r =>
      if c = '[' then
        if (skipWs r).head? = some ']' then some (.arr [], (skipWs r).drop 1)
        else parseElems fuel r []
      else if c.toNat = 123 then
        if ((skipWs r).head?.map Char.toNat) = some 125 then some (.obj [], (skipWs r).drop 1)
        else parseMembers fuel r []
      else if c.toNat = 34 then
        match parseStringBody r.length r [] with
        | some (s, r2) => some (.str s, r2)
        | none => none
      else
        match parseJSONNumber (c :: r) with
        | some (x, r2) => some (.num x, r2)
        | none => none
    | [] => none
/-- The elements of an array up to its closing bracket; `acc` holds the
elements read so far, last first. -/
def parseElems : Nat → List Char → List JSVal → Option (JSVal × List Char)
  | 0, _, _ => none
  | fuel + 1, cs, acc =>
    match parseValue fuel cs with
    | none => none
    | some (v, r) =>
      match skipWs r with
      | ',' :: r2 => parseElems fuel r2 (v :: acc)
      | ']' :: r2 => some (.arr (v :: acc).reverse, r2)
      | _ => none
/-- The members of an object up to its closing brace. -/
def parseMembers : Nat → List Char → List (String × JSVal) → Option (JSVal × List Char)
  | 0, _, _ => none
  | fuel + 1, cs, acc =>
    match skipWs cs with
    | q :: r =>
      if q.toNat ≠ 34 then none else
      match parseStringBody r.length r [] with
      | none => none
      | some (k, r1) =>
        match skipWs r1 with
        | ':' :: r2 =>
          match parseValue fuel r2 with
          | none => none
          | some (v, r3) =>
            match skipWs r3 with
            | c4 :: r4 =>
              if c4 = ',' then parseMembers fuel r4 (setField acc k v)
              else if c4.toNat = 125 then some (.obj (setField acc k v), r4)
              else none
            | [] => none
        | _ => none
    | [] => none
end

/-- The call `JSON.parse(text)`; `none` when it throws a SyntaxError. -/
def jsonParse (text : String) : Option JSVal :=
  match parseValue (2 * text.length + 2) text.data with
  | some (v, r) => if (skipWs r).isEmpty then some v else none
  | none => none


def upperHex (n : Nat) : Char := if n < 10 then Char.ofNat (48 + n) else Char.ofNat (55 + n)

/-- UTF-8 bytes of a code point. -/
def utf8Bytes (c : Char) : List Nat :=
  let n := c.toNat
  if n < 128 then [n]
  else if n < 2048 then [192 + n / 64, 128 + n % 64]
  else if n < 65536 then [224 + n / 4096, 128 + n / 64 % 64, 128 + n % 64]
  else [240 + n / 262144, 128 + n / 4096 % 64, 128 + n / 64 % 64, 128 + n % 64]

/-- Characters that `encodeURIComponent` leaves as they are:
letters, digits and `- _ . ! ~ * ' ( )`. -/
def isUriUnreserved (c : Char) : Bool :=
  let n := c.toNat
  (65 ≤ n && n ≤ 90) || (97 ≤ n && n ≤ 122) || (48 ≤ n && n ≤ 57) ||
  n = 45 || n = 95 || n = 46 || n = 33 || n = 126 || n = 42 || n = 39 || n = 40 || n = 41

def encodeChars : List Char → List Char
  | [] => []
  | c :: cs =>
    if isUriUnreserved c then c :: encodeChars cs
    else (utf8Bytes c).flatMap (fun b => ['%', upperHex (b / 16), upperHex (b % 16)]) ++ encodeChars cs

/-- The call `encodeURIComponent(s)`. -/
def encodeURIComponent (s : String) : String := String.mk (encodeChars s.data)

/-- What `fetch` is called with. -/
structure Request where
  url : String
  method : String
  headers : List (String × String)
  body : Option String
deriving DecidableEq, Repr

/-- First half of source function `apiFetch(base, path, {method, token, body})`:
the request handed to `fetch`. An option that is not passed is `none`. -/
def apiFetchRequest (base path : String) (method : Option String) (token : Option String)
    (body : Option JSVal) : Request :=
  let headers : List (String × String) := []
  let headers :=
    match token with
    | some t => if t ≠ "" then headers ++ [("Authorization", "Bearer " ++ t)] else headers
    | none => headers
  let hasBody : Bool :=
    match body with
    | some b => toBoolean b
    | none => false
  let headers := if hasBody then headers ++ [("Content-Type", "application/json")] else headers
  { url := base ++ path
    method := method.getD "GET"
    headers := headers
    body :=
      match body with
      | some b => if toBoolean b then jsonStringify b else none
      | none => none }

/-- What the awaited `fetch` and `res.text()` deliver. -/
structure Response where
  status : Nat
  statusText : String
  text : String
deriving DecidableEq, Repr

/-- The flag `res.ok`: the status is in the range 200-299. -/
def Response.ok (res : Response) : Bool := 200 ≤ res.status && res.status ≤ 299

/-- How the network call settles: `fetch` (or reading the body) rejects with
an error, or a response with its body text arrives. -/
inductive FetchOutcome where
  | rejected (e : JSError)
  | response (res : Response)

def isString : JSVal → Bool
  | .str _ => true
  | _ => false

/-- Second half of source function `apiFetch`: decode the body text and
classify the response. The result is the settled promise: the decoded body, or
the thrown error. -/
def apiFetchResult (o : FetchOutcome) : JS JSVal :=
  match o with
  | .rejected e => .error e
  | .response res =>
    let text := res.text
    let data : JSVal :=
      if text ≠ "" then
        match jsonParse text with
        | some v => v
        | none => .str text
      else .null
    if !res.ok then
      let msg : JSVal :=
        if isString data then data else jsOr (getPropOpt data "detail") (pretty data)
      match toStr msg with
      | .error e => .error e
      | .ok m =>
        .error ⟨"Error", String.mk (natDigits res.status) ++ " " ++ res.statusText ++ ": " ++ m⟩
    else .ok data

inductive Role where
  | user
  | assistant
deriving DecidableEq, Repr

/-- The `meta` object of an assistant turn. -/
structure TurnMeta where
  run_id : JSVal
  steps : JSVal

/-- One message of the transcript; `meta` is `none` when the message object
has no such key. -/
structure Turn where
  role : Role
  content : String
  meta : Option TurnMeta

/-- The backend calls the page issues. -/
inductive CallKind where
  | projects
  | kbs
  | docs
  | profile
  | agentQuery
deriving DecidableEq, Repr

/-- A network call that has been issued and has not settled yet. -/
structure Pending where
  kind : CallKind
  request : Request
deriving DecidableEq, Repr

/-- The state of `ChatPage`: its `useState` cells, the persisted token
(`localStorage` key `docfoundry_token`) and the calls in flight.
`renderError` is set once a state updater has thrown while React rendered:
the component tree is unmounted then and no handler runs any more. -/
structure ChatState where
  apiBase : String
  token : String
  projects : List JSVal
  kbs : List JSVal
  documents : List JSVal
  docProfile : JSVal
  selectedProjectId : String
  selectedKbId : String
  selectedDocId : String
  messages : List Turn
  draft : String
  busy : Bool
  error : String
  topK : JSNum
  showTrace : Bool
  storage : Option String
  pending : List Pending
  renderError : Option JSError

def greeting : Turn :=
  { role := .assistant
    content := "Ask me about your documents. Select a KB or Document on the left to scope retrieval."
    meta := none }

def newChatTurn : Turn :=
  { role := .assistant, content := "New chat started. Ask away.", meta := none }

def loginPromptTurn : Turn :=
  { role := .assistant
    content := "You’re not logged in. Use the login form (left) to get a JWT, then retry."
    meta := none }

/-- The `useState` initial values, with `saved` in local storage. -/
def initialState (saved : Option String) : ChatState :=
  { apiBase := "http://localhost:8000"
    token := ""
    projects := []
    kbs := []
    documents := []
    docProfile := .null
    selectedProjectId := ""
    selectedKbId := ""
    selectedDocId := ""
    messages := [greeting]
    draft := ""
    busy := false
    error := ""
    topK := .fin false 5 0
    showTrace := true
    storage := saved
    pending := []
    renderError := none }

def issue (s : ChatState) (kind : CallKind) (req : Request) : ChatState :=
  { s with pending := s.pending ++ [⟨kind, req⟩] }

/-- Request of source function `refreshProjects`. -/
def refreshProjectsRequest (apiBase : String) : Request :=
  apiFetchRequest apiBase "/projects/" none none none

/-- Request of source function `refreshKbs(projectId)`. -/
def refreshKbsRequest (apiBase projectId : String) : Request :=
  let q := if projectId ≠ "" then "?project_id=" ++ encodeURIComponent projectId else ""
  apiFetchRequest apiBase ("/kb/" ++ q) none none none

/-- Request of source function `refreshDocs(kbId)`. -/
def refreshDocsRequest (apiBase kbId : String) : Request :=
  let q := if kbId ≠ "" then "?kb_id=" ++ encodeURIComponent kbId else ""
  apiFetchRequest apiBase ("/documents/" ++ q) none none none

/-- Request of the document-profile effect. -/
def profileRequest (apiBase docId : String) : Request :=
  apiFetchRequest apiBase ("/documents/" ++ encodeURIComponent docId ++ "/profile") none none none

def idOrNull (id : String) : JSVal := if id ≠ "" then .str id else .null

/-- Request of the agent query in source function `send`, built from the
values of the render in which `send` was invoked. -/
def agentQueryRequest (s : ChatState) (text : String) : Request :=
  apiFetchRequest s.apiBase "/agent/query" (some "POST") (some s.token)
    (some (.obj [("message", .str text),
      ("project_id", idOrNull s.selectedProjectId),
      ("kb_id", idOrNull s.selectedKbId),
      ("document_id", idOrNull s.selectedDocId),
      ("top_k", .num s.topK),
      ("return_steps", .bool s.showTrace)]))

/-- The effect `useEffect(..., [token])`: persist or remove the token. Like
every effect below it runs only if its dependencies differ between the
previous render `prev` and this render `cur`, reads the values of this render,
and applies its state updates to `s`. -/
def tokenEffect (prev cur s : ChatState) : ChatState :=
  if prev.token ≠ cur.token then
    { s with storage := if cur.token ≠ "" then some cur.token else none }
  else s

/-- The effect `useEffect(..., [apiBase])`: refresh the project list. -/
def projectsEffect (prev cur s : ChatState) : ChatState :=
  if prev.apiBase ≠ cur.apiBase then issue s .projects (refreshProjectsRequest cur.apiBase) else s

/-- The effect `useEffect(..., [selectedProjectId])`. -/
def projectEffect (prev cur s : ChatState) : ChatState :=
  if prev.selectedProjectId ≠ cur.selectedProjectId then
    { issue s .kbs (refreshKbsRequest cur.apiBase cur.selectedProjectId) with
      selectedKbId := "", selectedDocId := "", documents := [], docProfile := .null }
  else s

/-- The effect `useEffect(..., [selectedKbId])`. -/
def kbEffect (prev cur s : ChatState) : ChatState :=
  if prev.selectedKbId ≠ cur.selectedKbId then
    if cur.selectedKbId = "" then s
    else
      { issue s .docs (refreshDocsRequest cur.apiBase cur.selectedKbId) with
        selectedDocId := "", docProfile := .null }
  else s

/-- The effect `useEffect(..., [apiBase, selectedDocId])`. -/
def docEffect (prev cur s : ChatState) : ChatState :=
  if prev.apiBase ≠ cur.apiBase ∨ prev.selectedDocId ≠ cur.selectedDocId then
    if cur.selectedDocId = "" then { s with docProfile := .null }
    else issue s .profile (profileRequest cur.apiBase cur.selectedDocId)
  else s

/-- One commit of the component: the effects whose dependencies changed run in
source order, their state updates applied in order on top of `cur`. (The
scroll effect changes no state and is left out; the load-from-storage effect
runs on mount only.) -/
def commitEffects (prev cur : ChatState) : ChatState :=
  docEffect prev cur (kbEffect prev cur (projectEffect prev cur
    (projectsEffect prev cur (tokenEffect prev cur cur))))

/-- Whether two renders agree on every effect dependency. -/
def sameDeps (a b : ChatState) : Bool :=
  decide (a.token = b.token) && decide (a.apiBase = b.apiBase) &&
  decide (a.selectedProjectId = b.selectedProjectId) &&
  decide (a.selectedKbId = b.selectedKbId) && decide (a.selectedDocId = b.selectedDocId)

/-- Render and commit until no effect is due any more: `prev` is the last
committed render, `cur` the state to render next. `none` when the fuel runs
out first. -/
def settle : Nat → ChatState → ChatState → Option ChatState
  | 0, _, _ => none
  | fuel + 1, prev, cur =>
    let nxt := commitEffects prev cur
    if sameDeps cur nxt then some nxt else settle fuel cur nxt

/-- The first commit: every effect runs once on the initial render. -/
def mountEffects (cur : ChatState) : ChatState :=
  let s := cur
  let s :=
    match cur.storage with
    | some saved => if saved ≠ "" then { s with token := saved } else s
    | none => s
  let s := { s with storage := if cur.token ≠ "" then some cur.token else none }
  let s := issue s .projects (refreshProjectsRequest cur.apiBase)
  let s :=
    { issue s .kbs (refreshKbsRequest cur.apiBase cur.selectedProjectId) with
      selectedKbId := "", selectedDocId := "", documents := [], docProfile := .null }
  let s :=
    if cur.selectedKbId = "" then s
    else
      { issue s .docs (refreshDocsRequest cur.apiBase cur.selectedKbId) with
        selectedDocId := "", docProfile := .null }
  let s :=
    if cur.selectedDocId = "" then { s with docProfile := .null }
    else issue s .profile (profileRequest cur.apiBase cur.selectedDocId)
  s

def effectFuel : Nat := 4

/-- The page after mounting with `saved` in local storage. -/
def mount (saved : Option String) : Option ChatState :=
  let cur := initialState saved
  let nxt := mountEffects cur
  if sameDeps cur nxt then some nxt else settle effectFuel cur nxt

/-- The expression `Array.isArray(data) ? data : []`. -/
def arrayOrEmpty : JSVal → List JSVal
  | .arr xs => xs
  | _ => []

/-- The value `(resp.citations || []).slice(0, 5)` as far as the code goes on
to use it. An array yields its first five elements. A non-empty string has a
`slice`, and the string it returns is non-empty and has no `map`, so the
`map` call throws. Any other truthy value has no `slice`. -/
def citationsOf (resp : JSVal) : JS (List JSVal) :=
  match getProp resp "citations" with
  | .error e => .error e
  | .ok c =>
    match jsOr c (.arr []) with
    | .arr xs => .ok (xs.take 5)
    | .str _ => .error (typeError "citations.map is not a function")
    | _ => .error (typeError "(resp.citations || []).slice is not a function")

/-- The fragment `doc=...` of a citation line. -/
def docLabel (c : JSVal) : JS String :=
  match getProp c "metadata" with
  | .error e => .error e
  | .ok md =>
    match getProp (jsOr md (.obj [])) "document_id" with
    | .error e => .error e
    | .ok d =>
      if toBoolean d then
        match toStr d with
        | .error e => .error e
        | .ok t => .ok ("doc=" ++ t)
      else .ok "doc=?"

/-- The fragment `chunk=...` of a citation line. -/
def chunkLabel (c : JSVal) : JS String :=
  match getProp c "chunk_id" with
  | .error e => .error e
  | .ok ch =>
    if toBoolean ch then
      match toStr ch with
      | .error e => .error e
      | .ok t => .ok ("chunk=" ++ t)
    else .ok "chunk=?"

/-- The fragment `c.score != null ? " score=" + Number(c.score).toFixed(2) : ""`. -/
def scoreSuffix (c : JSVal) : JS String :=
  match getProp c "score" with
  | .error e => .error e
  | .ok sc =>
    if notNullish sc then
      match toNumber sc with
      | .error e => .error e
      | .ok x => .ok (" score=" ++ toFixed2 x)
    else .ok ""

/-- The callback of `citations.map((c, i) => ...)`: one line for citation `c`
at zero-based position `i`. -/
def citeEntry (c : JSVal) (i : Nat) : JS String :=
  match docLabel c with
  | .error e => .error e
  | .ok label =>
    match chunkLabel c with
    | .error e => .error e
    | .ok chunk =>
      match scoreSuffix c with
      | .error e => .error e
      | .ok sfx => .ok ("- [" ++ String.mk (natDigits (i + 1)) ++ "] " ++ label ++ " " ++ chunk ++ sfx)

/-- The call `citations.map(callback)` from position `i` on: the first
throwing element aborts. -/
def citeEntries : List JSVal → Nat → JS (List String)
  | [], _ => .ok []
  | c :: cs, i =>
    match citeEntry c i with
    | .error e => .error e
    | .ok l =>
      match citeEntries cs (i + 1) with
      | .error e => .error e
      | .ok ls => .ok (l :: ls)

/-- The constant `citeLine` of source function `send`. -/
def citeLine (resp : JSVal) : JS String :=
  match citationsOf resp with
  | .error e => .error e
  | .ok citations =>
    if citations.length > 0 then
      match citeEntries citations 0 with
      | .error e => .error e
      | .ok ls => .ok ("\n\nSources:\n" ++ joinWith "\n" ls)
    else .ok ""

/-- The element that the updater `(m) => [...m, {role, content, meta}]` of the
`try` block appends, given `resp` and the computed `citeLine`. React calls the
updater while rendering, after `send` has left its `try` block: an error here
is thrown by the render, not caught by `send`. -/
def answerTurn (resp : JSVal) (cl : String) : JS Turn :=
  match getProp resp "answer" with
  | .error e => .error e
  | .ok a =>
    match toStr (jsOr a (.str "")) with
    | .error e => .error e
    | .ok ans =>
      match getProp resp "run_id", getProp resp "steps" with
      | .ok r, .ok st =>
        .ok { role := .assistant, content := ans ++ cl,
              meta := some { run_id := r, steps := jsOr st .null } }
      | .error e, _ => .error e
      | _, .error e => .error e

/-- The `catch` and `finally` of source function `send` for a caught error. -/
def sendFailed (e : JSError) (s : ChatState) : ChatState :=
  { s with
    error := errorText e
    messages := s.messages ++
      [{ role := .assistant, content := "Request failed: " ++ errorText e, meta := none }]
    busy := false }

/-- The part of source function `send` after `await apiFetch(...)` settled
with `r`: the rest of the `try` block, the `catch` and the `finally`, applied
to the state `s` current at that time. -/
def sendResume (r : JS JSVal) (s : ChatState) : ChatState :=
  match r with
  | .error e => sendFailed e s
  | .ok resp =>
    match citeLine resp with
    | .error e => sendFailed e s
    | .ok cl =>
      match answerTurn resp cl with
      | .ok turn => { s with messages := s.messages ++ [turn], busy := false }
      | .error e => { s with busy := false, renderError := some e }

/-- Source function `send`, up to its first `await` (or to its end when it
returns earlier). -/
def sendStart (s : ChatState) : ChatState :=
  let text := jsTrim s.draft
  if text = "" ∨ s.busy then s
  else
    let s1 : ChatState :=
      { s with
        error := ""
        busy := true
        draft := ""
        messages := s.messages ++ [{ role := .user, content := text, meta := none }] }
    if s.token = "" then
      { s1 with messages := s1.messages ++ [loginPromptTurn], busy := false }
    else issue s1 .agentQuery (agentQueryRequest s text)

/-- What runs when a pending call of the given kind settles with `r`. -/
def continuation (kind : CallKind) (r : JS JSVal) (s : ChatState) : ChatState :=
  match kind, r with
  | .projects, .ok data => { s with projects := arrayOrEmpty data }
  | .projects, .error _ => s
  | .kbs, .ok data => { s with kbs := arrayOrEmpty data }
  | .kbs, .error _ => s
  | .docs, .ok data => { s with documents := arrayOrEmpty data }
  | .docs, .error _ => s
  | .profile, .ok p => { s with docProfile := p }
  | .profile, .error _ => { s with docProfile := .null }
  | .agentQuery, r => sendResume r s

/-- What can happen to the page: a user intent or the settling of a call. -/
inductive Event where
  | setApiBase (v : String)
  | setToken (v : String)
  | selectProject (id : String)
  | selectKb (id : String)
  | selectDoc (id : String)
  | setDraft (v : String)
  | setTopK (v : String)
  | setShowTrace (b : Bool)
  | refreshClick
  | send
  | newChat
  | resolve (i : Nat) (o : FetchOutcome)

/-- The event handler itself, before React re-renders. Nothing happens on a
page whose render has failed. -/
def handle (ev : Event) (s : ChatState) : ChatState :=
  if s.renderError.isSome then s else
  match ev with
  | .setApiBase v => { s with apiBase := v }
  | .setToken v => { s with token := v }
  | .selectProject id => { s with selectedProjectId := id }
  | .selectKb id => { s with selectedKbId := id }
  | .selectDoc id => { s with selectedDocId := id }
  | .setDraft v => { s with draft := v }
  | .setTopK v => { s with topK := if v ≠ "" then stringToNumber v else .fin false 5 0 }
  | .setShowTrace b => { s with showTrace := b }
  | .refreshClick => issue s .projects (refreshProjectsRequest s.apiBase)
  | .send => sendStart s
  | .newChat => { s with messages := [newChatTurn] }
  | .resolve i o =>
    match s.pending[i]? with
    | none => s
    | some p => continuation p.kind (apiFetchResult o) { s with pending := s.pending.eraseIdx i }

/-- One event: its handler, then the effects it triggers. -/
def step (ev : Event) (s : ChatState) : Option ChatState :=
  settle effectFuel s (handle ev s)

/-- A sequence of events from a given state. -/
def run : List Event → ChatState → Option ChatState
  | [], s => some s
  | ev :: evs, s =>
    match step ev s with
    | none => none
    | some s1 => run evs s1

/-- A `send` that runs to its end with no other event in between: the agent
query, if one is issued, settles with `o`. -/
def sendComplete (o : FetchOutcome) (s : ChatState) : Option ChatState :=
  match step .send s with
  | none => none
  | some s1 =>
    if s1.pending.length = s.pending.length then some s1
    else step (.resolve s.pending.length o) s1

/-- A sample state of the page: a project, a knowledge base and a document are
selected, their lists and the profile are loaded, and a token is present. -/
def scopedState : ChatState :=
  { initialState none with
    token := "tok"
    storage := some "tok"
    projects := [.obj [("id", .str "p1"), ("name", .str "P")]]
    kbs := [.obj [("id", .str "kb1"), ("name", .str "K")]]
    documents := [.obj [("id", .str "d1"), ("title", .str "D")]]
    docProfile := .obj [("title", .str "D")]
    selectedProjectId := "p1"
    selectedKbId := "kb1"
    selectedDocId := "d1" }

/-- The page as it stands after mounting with empty local storage: the project
list and the unfiltered KB list have been requested. -/
def mountedState : ChatState :=
  { initialState none with
    pending := [⟨.projects, refreshProjectsRequest "http://localhost:8000"⟩,
      ⟨.kbs, refreshKbsRequest "http://localhost:8000" ""⟩] }

/-- The number 0.873 as a double. -/
def score0873 : JSNum := .fin false 7863284949388886 (-53)

/-- Two sample citations: the first with a document id in its metadata, a
chunk id and the score 0.873, the second with a chunk id only. -/
def exampleCitations : List JSVal :=
  [.obj [("metadata", .obj [("document_id", .str "d1")]), ("chunk_id", .str "c1"),
     ("score", .num score0873)],
   .obj [("chunk_id", .str "c2")]]

/-- The decoded body of source function `apiFetch`: `null` for an empty text,
the parsed JSON, or the text itself when parsing throws. -/
def decodeBody (text : String) : JSVal :=
  if text ≠ "" then
    match jsonParse text with
    | some v => v
    | none => .str text
  else .null

/-- The sample state with a refresh of the project list in flight. -/
def refreshingState : ChatState :=
  { scopedState with
    pending := [⟨.projects, refreshProjectsRequest "http://localhost:8000"⟩] }

/-- A primitive value: anything but an array or an object. -/
def isPrimitive : JSVal → Bool
  | .arr _ => false
  | .obj _ => false
  | _ => true

/-- Seven sample citations, each with a chunk id only. -/
def sevenCitations : List JSVal :=
  [.obj [("chunk_id", .str "c1")], .obj [("chunk_id", .str "c2")],
   .obj [("chunk_id", .str "c3")], .obj [("chunk_id", .str "c4")],
   .obj [("chunk_id", .str "c5")], .obj [("chunk_id", .str "c6")],
   .obj [("chunk_id", .str "c7")]]

/-! # Theorems -/

/-! ## Effects settle -/

theorem commitEffects_sameDeps (prev cur : ChatState) (h : sameDeps prev cur = true) :
    commitEffects prev cur = cur := by
  simp only [sameDeps, Bool.and_eq_true, decide_eq_true_eq] at h
  obtain ⟨⟨⟨⟨h1, h2⟩, h3⟩, h4⟩, h5⟩ := h
  simp [commitEffects, tokenEffect, projectsEffect, projectEffect, kbEffect, docEffect,
    h1, h2, h3, h4, h5]

theorem sameDeps_refl (s : ChatState) : sameDeps s s = true := by
  simp [sameDeps]

/-- When the handler changed no effect dependency, the state it produced is
the settled one. -/
theorem settle_sameDeps (fuel : Nat) (prev cur : ChatState) (h : sameDeps prev cur = true) :
    settle (fuel + 1) prev cur = some cur := by
  simp [settle, commitEffects_sameDeps prev cur h, sameDeps_refl]

theorem step_of_sameDeps (ev : Event) (s : ChatState) (h : sameDeps s (handle ev s) = true) :
    step ev s = some (handle ev s) := by
  simp [step, effectFuel, settle_sameDeps _ _ _ h]

/-- What a commit can do to the effect dependencies: the token, the API base
and the project stay, the knowledge-base and document selection stay or are
cleared. -/
theorem commitEffects_fixed (prev cur : ChatState) :
    (commitEffects prev cur).token = cur.token ∧
    (commitEffects prev cur).apiBase = cur.apiBase ∧
    (commitEffects prev cur).selectedProjectId = cur.selectedProjectId ∧
    ((commitEffects prev cur).selectedKbId = cur.selectedKbId ∨
      (commitEffects prev cur).selectedKbId = "") ∧
    ((commitEffects prev cur).selectedDocId = cur.selectedDocId ∨
      (commitEffects prev cur).selectedDocId = "") := by
  have e1 : ∀ s, (tokenEffect prev cur s).token = s.token ∧
      (tokenEffect prev cur s).apiBase = s.apiBase ∧
      (tokenEffect prev cur s).selectedProjectId = s.selectedProjectId ∧
      (tokenEffect prev cur s).selectedKbId = s.selectedKbId ∧
      (tokenEffect prev cur s).selectedDocId = s.selectedDocId := by
    intro s; unfold tokenEffect; split_ifs <;> simp
  have e2 : ∀ s, (projectsEffect prev cur s).token = s.token ∧
      (projectsEffect prev cur s).apiBase = s.apiBase ∧
      (projectsEffect prev cur s).selectedProjectId = s.selectedProjectId ∧
      (projectsEffect prev cur s).selectedKbId = s.selectedKbId ∧
      (projectsEffect prev cur s).selectedDocId = s.selectedDocId := by
    intro s; unfold projectsEffect issue; split_ifs <;> simp
  have e3 : ∀ s, (projectEffect prev cur s).token = s.token ∧
      (projectEffect prev cur s).apiBase = s.apiBase ∧
      (projectEffect prev cur s).selectedProjectId = s.selectedProjectId ∧
      ((projectEffect prev cur s).selectedKbId = s.selectedKbId ∨
        (projectEffect prev cur s).selectedKbId = "") ∧
      ((projectEffect prev cur s).selectedDocId = s.selectedDocId ∨
        (projectEffect prev cur s).selectedDocId = "") := by
    intro s; unfold projectEffect issue; split_ifs <;> simp
  have e4 : ∀ s, (kbEffect prev cur s).token = s.token ∧
      (kbEffect prev cur s).apiBase = s.apiBase ∧
      (kbEffect prev cur s).selectedProjectId = s.selectedProjectId ∧
      (kbEffect prev cur s).selectedKbId = s.selectedKbId ∧
      ((kbEffect prev cur s).selectedDocId = s.selectedDocId ∨
        (kbEffect prev cur s).selectedDocId = "") := by
    intro s; unfold kbEffect issue; split_ifs <;> simp
  have e5 : ∀ s, (docEffect prev cur s).token = s.token ∧
      (docEffect prev cur s).apiBase = s.apiBase ∧
      (docEffect prev cur s).selectedProjectId = s.selectedProjectId ∧
      (docEffect prev cur s).selectedKbId = s.selectedKbId ∧
      (docEffect prev cur s).selectedDocId = s.selectedDocId := by
    intro s; unfold docEffect issue; split_ifs <;> simp
  unfold commitEffects
  obtain ⟨a1, a2, a3, a4, a5⟩ := e1 cur
  obtain ⟨b1, b2, b3, b4, b5⟩ := e2 (tokenEffect prev cur cur)
  obtain ⟨c1, c2, c3, c4, c5⟩ := e3 (projectsEffect prev cur (tokenEffect prev cur cur))
  obtain ⟨d1, d2, d3, d4, d5⟩ :=
    e4 (projectEffect prev cur (projectsEffect prev cur (tokenEffect prev cur cur)))
  obtain ⟨f1, f2, f3, f4, f5⟩ :=
    e5 (kbEffect prev cur (projectEffect prev cur (projectsEffect prev cur (tokenEffect prev cur cur))))
  refine ⟨by rw [f1, d1, c1, b1, a1], by rw [f2, d2, c2, b2, a2], by rw [f3, d3, c3, b3, a3],
    ?_, ?_⟩
  · rw [f4, d4]
    rcases c4 with c4 | c4
    · left; rw [c4, b4, a4]
    · right; exact c4
  · rw [f5]
    rcases d5 with d5 | d5
    · rcases c5 with c5 | c5
      · left; rw [d5, c5, b5, a5]
      · right; rw [d5, c5]
    · right; exact d5

/-- After a commit that only cleared selections, the next commit changes no
dependency. -/
theorem commitEffects_quiet (cur nxt : ChatState) (h1 : nxt.token = cur.token)
    (h2 : nxt.apiBase = cur.apiBase) (h3 : nxt.selectedProjectId = cur.selectedProjectId)
    (h4 : nxt.selectedKbId = cur.selectedKbId ∨ nxt.selectedKbId = "") :
    sameDeps nxt (commitEffects cur nxt) = true := by
  have k1 : tokenEffect cur nxt nxt = nxt := by simp [tokenEffect, h1]
  have k2 : projectsEffect cur nxt nxt = nxt := by simp [projectsEffect, h2]
  have k3 : projectEffect cur nxt nxt = nxt := by simp [projectEffect, h3]
  have k4 : kbEffect cur nxt nxt = nxt := by
    rcases h4 with h4 | h4 <;> simp [kbEffect, h4]
  unfold commitEffects
  rw [k1, k2, k3, k4]
  unfold docEffect issue sameDeps
  split_ifs <;> simp

/-- Two commits always suffice: the effects only ever clear the knowledge-base
and document selection, and clearing them triggers no further change. -/
theorem settle_total (fuel : Nat) (prev cur : ChatState) :
    ∃ r, settle (fuel + 2) prev cur = some r := by
  obtain ⟨h1, h2, h3, h4, _⟩ := commitEffects_fixed prev cur
  have hq := commitEffects_quiet cur (commitEffects prev cur) h1 h2 h3 h4
  by_cases hs : sameDeps cur (commitEffects prev cur) = true
  · exact ⟨commitEffects prev cur, by simp [settle, hs]⟩
  · exact ⟨commitEffects cur (commitEffects prev cur), by simp [settle, hs, hq]⟩

/-- Every event leads to a settled state. -/
theorem step_total (ev : Event) (s : ChatState) : ∃ r, step ev s = some r :=
  settle_total 2 s (handle ev s)

theorem mount_none : mount none = some mountedState := by
  rfl

theorem step_selectProject (s : ChatState) (p : String) (hlive : s.renderError = none)
    (hp : p ≠ s.selectedProjectId) :
    step (.selectProject p) s = some
      { s with
        selectedProjectId := p
        selectedKbId := ""
        selectedDocId := ""
        documents := []
        docProfile := .null
        pending := s.pending ++ [⟨.kbs, refreshKbsRequest s.apiBase p⟩] } := by
  have hp2 : ¬ s.selectedProjectId = p := fun h => hp h.symm
  by_cases hk : s.selectedKbId = "" <;> by_cases hd : s.selectedDocId = "" <;>
    simp [step, handle, hlive, effectFuel, settle, commitEffects, tokenEffect, projectsEffect,
      projectEffect, kbEffect, docEffect, sameDeps, issue, hp2, hk, hd]

theorem step_selectKb_set (s : ChatState) (k : String) (hlive : s.renderError = none)
    (hk : k ≠ s.selectedKbId) (hset : k ≠ "") :
    step (.selectKb k) s = some
      { s with
        selectedKbId := k
        selectedDocId := ""
        docProfile := .null
        pending := s.pending ++ [⟨.docs, refreshDocsRequest s.apiBase k⟩] } := by
  have hk2 : ¬ s.selectedKbId = k := fun h => hk h.symm
  by_cases hd : s.selectedDocId = "" <;>
    simp [step, handle, hlive, effectFuel, settle, commitEffects, tokenEffect, projectsEffect,
      projectEffect, kbEffect, docEffect, sameDeps, issue, hk2, hset, hd]

theorem step_selectKb_unset (s : ChatState) (hlive : s.renderError = none) :
    step (.selectKb "") s = some { s with selectedKbId := "" } := by
  by_cases hk : s.selectedKbId = "" <;>
    simp [step, handle, hlive, effectFuel, settle, commitEffects, tokenEffect, projectsEffect,
      projectEffect, kbEffect, docEffect, sameDeps, issue, hk]

theorem step_selectDoc_set (s : ChatState) (d : String) (hlive : s.renderError = none)
    (hd : d ≠ s.selectedDocId) (hset : d ≠ "") :
    step (.selectDoc d) s = some
      { s with
        selectedDocId := d
        pending := s.pending ++ [⟨.profile, profileRequest s.apiBase d⟩] } := by
  have hd2 : ¬ s.selectedDocId = d := fun h => hd h.symm
  simp [step, handle, hlive, effectFuel, settle, commitEffects, tokenEffect, projectsEffect,
      projectEffect, kbEffect, docEffect, sameDeps, issue, hd2, hset]

theorem step_resolve (s : ChatState) (i : Nat) (o : FetchOutcome) (p : Pending)
    (hlive : s.renderError = none) (hp : s.pending[i]? = some p) :
    step (.resolve i o) s =
      some (continuation p.kind (apiFetchResult o) { s with pending := s.pending.eraseIdx i }) := by
  have hh : handle (.resolve i o) s =
      continuation p.kind (apiFetchResult o) { s with pending := s.pending.eraseIdx i } := by
    simp [handle, hlive, hp]
  rw [step_of_sameDeps, hh]
  rw [hh]
  cases hk : p.kind <;> cases hr : apiFetchResult o <;>
    simp [continuation, sameDeps, sendResume, sendFailed]
  all_goals (repeat' split) <;> simp

theorem getElem?_append_two_snd {α : Type} (l : List α) (a b : α) :
    (l ++ [a, b])[l.length + 1]? = some b := by
  induction l with
  | nil => rfl
  | cons x xs ih => simpa using ih

theorem getElem?_append_one {α : Type} (l : List α) (a : α) :
    (l ++ [a])[l.length]? = some a := by
  simp

theorem eraseIdx_append_two_snd {α : Type} (l : List α) (a b : α) :
    (l ++ [a, b]).eraseIdx (l.length + 1) = l ++ [a] := by
  induction l with
  | nil => rfl
  | cons x xs ih => simpa using ih

theorem eraseIdx_append_one {α : Type} (l : List α) (a : α) :
    (l ++ [a]).eraseIdx l.length = l := by
  induction l with
  | nil => rfl
  | cons x xs ih => simpa using ih

/-- C1: for every state of the (live) page and every project id `p` other than
the current one (the empty id, unset, included), selecting `p` and letting the
effect cascade run leaves the knowledge-base and the document selection unset,
the document list empty and the profile unset, before any response has
settled: the calls in flight are the earlier ones plus the new KB-list
request, and the KB list is still the earlier one. -/
theorem C1_project_change_clears_scope (s : ChatState) (p : String)
    (hlive : s.renderError = none) (hp : p ≠ s.selectedProjectId) :
    ∃ s1, step (.selectProject p) s = some s1 ∧
      s1.selectedProjectId = p ∧ s1.selectedKbId = "" ∧ s1.selectedDocId = "" ∧
      s1.documents = [] ∧ s1.docProfile = .null ∧
      s1.pending = s.pending ++ [⟨.kbs, refreshKbsRequest s.apiBase p⟩] ∧ s1.kbs = s.kbs :=
  ⟨_, step_selectProject s p hlive hp, rfl, rfl, rfl, rfl, rfl, rfl, rfl⟩

theorem C1_project_change_witness :
    scopedState.renderError = none ∧ "" ≠ scopedState.selectedProjectId ∧
    ∃ s1, step (.selectProject "") scopedState = some s1 ∧
      s1.selectedProjectId = "" ∧ s1.selectedKbId = "" ∧ s1.selectedDocId = "" ∧
      s1.documents = [] ∧ s1.docProfile = .null ∧
      s1.pending = scopedState.pending ++ [⟨.kbs, refreshKbsRequest scopedState.apiBase ""⟩] ∧
      s1.kbs = scopedState.kbs :=
  ⟨rfl, by decide, C1_project_change_clears_scope scopedState "" rfl (by decide)⟩

/-- C2 fails on the code: on the mounted page, project A is selected, then
project B; B's KB list arrives first and A's afterwards. The page then shows
project B together with the KB list of A. -/
theorem C2_stale_response_counterexample :
    ((mount none).bind (run
      [.selectProject "A", .selectProject "B",
       .resolve 3 (.response ⟨200, "OK", "[\x7b\"id\":\"kbB\"\x7d]"⟩),
       .resolve 2 (.response ⟨200, "OK", "[\x7b\"id\":\"kbA\"\x7d]"⟩)])).map
      (fun s => (s.selectedProjectId, s.kbs)) =
    some ("B", [.obj [("id", .str "kbA")]]) := by
  rfl

/-- The continuation of a list or profile call leaves the selection, the calls
in flight and the render status alone. -/
theorem continuation_frame (kind : CallKind) (r : JS JSVal) (s : ChatState)
    (hk : kind ≠ .agentQuery) :
    (continuation kind r s).pending = s.pending ∧
    (continuation kind r s).renderError = s.renderError ∧
    (continuation kind r s).apiBase = s.apiBase ∧
    (continuation kind r s).selectedProjectId = s.selectedProjectId ∧
    (continuation kind r s).selectedKbId = s.selectedKbId ∧
    (continuation kind r s).selectedDocId = s.selectedDocId := by
  cases kind <;> cases r <;> simp_all [continuation]

/-- Two calls issued one after the other settle in reverse order: the state
after both is the continuation of the first applied on top of the second. -/
theorem resolve_reversed (s : ChatState) (l : List Pending) (pA pB : Pending)
    (oA oB : FetchOutcome) (hlive : s.renderError = none) (hp : s.pending = l ++ [pA, pB])
    (hB : pB.kind ≠ .agentQuery) :
    run [.resolve (l.length + 1) oB, .resolve l.length oA] s =
      some (continuation pA.kind (apiFetchResult oA)
        { continuation pB.kind (apiFetchResult oB) { s with pending := l ++ [pA] } with
          pending := l }) := by
  have h1 : s.pending[l.length + 1]? = some pB := by rw [hp]; exact getElem?_append_two_snd l pA pB
  have e1 := step_resolve s (l.length + 1) oB pB hlive h1
  rw [hp, eraseIdx_append_two_snd] at e1
  obtain ⟨f1, f2, -⟩ := continuation_frame pB.kind (apiFetchResult oB)
    { s with pending := l ++ [pA] } hB
  have h2 : (continuation pB.kind (apiFetchResult oB) { s with pending := l ++ [pA] }).pending[l.length]?
      = some pA := by rw [f1]; exact getElem?_append_one l pA
  have e2 := step_resolve _ l.length oA pA (by rw [f2]; exact hlive) h2
  rw [f1, eraseIdx_append_one] at e2
  simp only [run, e1, e2]

/-- C2 (amended): a response is applied whichever selection is current when it
settles. In every interleaving where a list or profile is requested for A, the
selection moves on to B, the call for B settles (in any way) and the call for
A then settles successfully with body `dA`, the state holds the data of A
under the selection B: the KB list is `dA` (empty if `dA` is no array),
likewise the document list, and the profile is `dA`. -/
theorem C2_last_response_wins (s : ChatState) (A B : String) (oA oB : FetchOutcome)
    (dA : JSVal) (hlive : s.renderError = none) (hAB : B ≠ A)
    (hA : apiFetchResult oA = .ok dA) :
    (A ≠ s.selectedProjectId →
      ∃ s4, run [.selectProject A, .selectProject B, .resolve (s.pending.length + 1) oB,
          .resolve s.pending.length oA] s = some s4 ∧
        s4.selectedProjectId = B ∧ s4.kbs = arrayOrEmpty dA) ∧
    (A ≠ s.selectedKbId → A ≠ "" → B ≠ "" →
      ∃ s4, run [.selectKb A, .selectKb B, .resolve (s.pending.length + 1) oB,
          .resolve s.pending.length oA] s = some s4 ∧
        s4.selectedKbId = B ∧ s4.documents = arrayOrEmpty dA) ∧
    (A ≠ s.selectedDocId → A ≠ "" → B ≠ "" →
      ∃ s4, run [.selectDoc A, .selectDoc B, .resolve (s.pending.length + 1) oB,
          .resolve s.pending.length oA] s = some s4 ∧
        s4.selectedDocId = B ∧ s4.docProfile = dA) := by
  refine ⟨fun h1 => ?_, fun h1 h2 h3 => ?_, fun h1 h2 h3 => ?_⟩
  · have e1 := step_selectProject s A hlive h1
    have e2 := step_selectProject { s with
        selectedProjectId := A, selectedKbId := "", selectedDocId := "", documents := [],
        docProfile := .null, pending := s.pending ++ [⟨.kbs, refreshKbsRequest s.apiBase A⟩] }
      B hlive hAB
    have e3 := resolve_reversed { s with
        selectedProjectId := B, selectedKbId := "", selectedDocId := "", documents := [],
        docProfile := .null,
        pending := s.pending ++ [⟨.kbs, refreshKbsRequest s.apiBase A⟩] ++
          [⟨.kbs, refreshKbsRequest s.apiBase B⟩] }
      s.pending ⟨.kbs, refreshKbsRequest s.apiBase A⟩ ⟨.kbs, refreshKbsRequest s.apiBase B⟩ oA oB
      hlive (by simp) (by simp)
    rw [run, e1]
    simp only
    rw [run, e2]
    simp only
    rw [e3, hA]
    refine ⟨_, rfl, ?_, ?_⟩
    · cases apiFetchResult oB <;> simp [continuation]
    · cases apiFetchResult oB <;> simp [continuation]
  · have e1 := step_selectKb_set s A hlive h1 h2
    have e2 := step_selectKb_set { s with
        selectedKbId := A, selectedDocId := "", docProfile := .null,
        pending := s.pending ++ [⟨.docs, refreshDocsRequest s.apiBase A⟩] }
      B hlive hAB h3
    have e3 := resolve_reversed { s with
        selectedKbId := B, selectedDocId := "", docProfile := .null,
        pending := s.pending ++ [⟨.docs, refreshDocsRequest s.apiBase A⟩] ++
          [⟨.docs, refreshDocsRequest s.apiBase B⟩] }
      s.pending ⟨.docs, refreshDocsRequest s.apiBase A⟩ ⟨.docs, refreshDocsRequest s.apiBase B⟩ oA oB
      hlive (by simp) (by simp)
    rw [run, e1]
    simp only
    rw [run, e2]
    simp only
    rw [e3, hA]
    refine ⟨_, rfl, ?_, ?_⟩
    · cases apiFetchResult oB <;> simp [continuation]
    · cases apiFetchResult oB <;> simp [continuation]
  · have e1 := step_selectDoc_set s A hlive h1 h2
    have e2 := step_selectDoc_set { s with
        selectedDocId := A,
        pending := s.pending ++ [⟨.profile, profileRequest s.apiBase A⟩] }
      B hlive hAB h3
    have e3 := resolve_reversed { s with
        selectedDocId := B,
        pending := s.pending ++ [⟨.profile, profileRequest s.apiBase A⟩] ++
          [⟨.profile, profileRequest s.apiBase B⟩] }
      s.pending ⟨.profile, profileRequest s.apiBase A⟩ ⟨.profile, profileRequest s.apiBase B⟩
      oA oB hlive (by simp) (by simp)
    rw [run, e1]
    simp only
    rw [run, e2]
    simp only
    rw [e3, hA]
    refine ⟨_, rfl, ?_, ?_⟩
    · cases apiFetchResult oB <;> simp [continuation]
    · cases apiFetchResult oB <;> simp [continuation]

theorem C2_last_response_witness :
    (mountedState.renderError = none ∧ "B" ≠ "A" ∧
      apiFetchResult (.response ⟨200, "OK", "[\x7b\"id\":\"kbA\"\x7d]"⟩) =
        .ok (.arr [.obj [("id", .str "kbA")]]) ∧ "A" ≠ mountedState.selectedProjectId) ∧
    ∃ s4, run [.selectProject "A", .selectProject "B",
        .resolve (mountedState.pending.length + 1) (.rejected ⟨"TypeError", "Failed to fetch"⟩),
        .resolve mountedState.pending.length
          (.response ⟨200, "OK", "[\x7b\"id\":\"kbA\"\x7d]"⟩)] mountedState = some s4 ∧
      s4.selectedProjectId = "B" ∧ s4.kbs = arrayOrEmpty (.arr [.obj [("id", .str "kbA")]]) :=
  ⟨⟨rfl, by decide, rfl, by decide⟩,
    (C2_last_response_wins mountedState "A" "B"
      (.response ⟨200, "OK", "[\x7b\"id\":\"kbA\"\x7d]"⟩)
      (.rejected ⟨"TypeError", "Failed to fetch"⟩)
      (.arr [.obj [("id", .str "kbA")]]) rfl (by decide) rfl).1 (by decide)⟩

/-- C3 fails on the code: with knowledge base `kb1` and document `d1` selected
and the profile of `d1` loaded, setting the knowledge base back to unset
leaves the document selected and its profile in place. -/
theorem C3_unset_kb_counterexample :
    ((mount none).bind (run
      [.selectKb "kb1",
       .resolve 2 (.response ⟨200, "OK", "[\x7b\"id\":\"d1\"\x7d]"⟩),
       .selectDoc "d1",
       .resolve 2 (.response ⟨200, "OK", "\x7b\"title\":\"T\"\x7d"⟩),
       .selectKb ""])).map
      (fun s => (s.selectedKbId, s.selectedDocId, s.docProfile)) =
    some ("", "d1", .obj [("title", .str "T")]) := by
  rfl

/-- C3 (amended): for every state of the live page and every knowledge-base
id `k` other than the current one, selecting `k` makes `k` current. If `k` is
set, the document selection and the profile are cleared and a document-list
request for `k` is issued. If `k` is unset, no request is issued and the
document selection, the profile and the document list stay as they were. -/
theorem C3_kb_change (s : ChatState) (k : String) (hlive : s.renderError = none)
    (hk : k ≠ s.selectedKbId) :
    ∃ s1, step (.selectKb k) s = some s1 ∧ s1.selectedKbId = k ∧
      (k ≠ "" → s1.selectedDocId = "" ∧ s1.docProfile = .null ∧
        s1.pending = s.pending ++ [⟨.docs, refreshDocsRequest s.apiBase k⟩]) ∧
      (k = "" → s1.selectedDocId = s.selectedDocId ∧ s1.docProfile = s.docProfile ∧
        s1.documents = s.documents ∧ s1.pending = s.pending) := by
  by_cases hset : k = ""
  · subst hset
    exact ⟨_, step_selectKb_unset s hlive, rfl, fun h => absurd rfl h,
      fun _ => ⟨rfl, rfl, rfl, rfl⟩⟩
  · exact ⟨_, step_selectKb_set s k hlive hk hset, rfl, fun _ => ⟨rfl, rfl, rfl⟩,
      fun h => absurd h hset⟩

theorem C3_kb_change_witness :
    (scopedState.renderError = none ∧ "kb2" ≠ scopedState.selectedKbId) ∧
    ∃ s1, step (.selectKb "kb2") scopedState = some s1 ∧ s1.selectedKbId = "kb2" ∧
      ("kb2" ≠ "" → s1.selectedDocId = "" ∧ s1.docProfile = .null ∧
        s1.pending = scopedState.pending ++ [⟨.docs, refreshDocsRequest scopedState.apiBase "kb2"⟩]) ∧
      ("kb2" = "" → s1.selectedDocId = scopedState.selectedDocId ∧
        s1.docProfile = scopedState.docProfile ∧
        s1.documents = scopedState.documents ∧ s1.pending = scopedState.pending) :=
  ⟨⟨rfl, by decide⟩, C3_kb_change scopedState "kb2" rfl (by decide)⟩

/-- C4: for every state, `send` does nothing while a submission is in flight
or while the draft is blank: the whole state, and with it the transcript, the
last error, the busy flag, the draft and the calls in flight, is unchanged. -/
theorem C4_send_guard (s : ChatState) (h : s.busy = true ∨ jsTrim s.draft = "") :
    step .send s = some s := by
  have hh : handle .send s = s := by
    unfold handle sendStart
    rcases h with h | h <;> simp [h]
  have := step_of_sameDeps .send s (by rw [hh]; exact sameDeps_refl s)
  rw [hh] at this
  exact this

theorem C4_send_guard_witness :
    (({ scopedState with busy := true, draft := "hello" } : ChatState).busy = true ∨
      jsTrim ({ scopedState with busy := true, draft := "hello" } : ChatState).draft = "") ∧
    step .send { scopedState with busy := true, draft := "hello" } =
      some { scopedState with busy := true, draft := "hello" } :=
  ⟨Or.inl rfl, C4_send_guard { scopedState with busy := true, draft := "hello" } (Or.inl rfl)⟩

theorem step_send_start (s : ChatState) (hlive : s.renderError = none) :
    step .send s = some (sendStart s) := by
  have hh : handle .send s = sendStart s := by simp [handle, hlive]
  have hd : sameDeps s (sendStart s) = true := by
    by_cases hg : jsTrim s.draft = "" ∨ s.busy = true <;> by_cases htok : s.token = "" <;>
      simp [sendStart, hg, htok, sameDeps, issue]
  have := step_of_sameDeps .send s (by rw [hh]; exact hd)
  rw [hh] at this
  exact this

/-- What `send` runs through when the guard lets it pass and a token is set. -/
theorem sendComplete_authenticated (s : ChatState) (o : FetchOutcome)
    (hlive : s.renderError = none) (hbusy : s.busy = false) (htext : jsTrim s.draft ≠ "")
    (htok : s.token ≠ "") :
    sendComplete o s = some (sendResume (apiFetchResult o)
      { s with
        error := ""
        busy := true
        draft := ""
        messages := s.messages ++ [{ role := .user, content := jsTrim s.draft, meta := none }] }) := by
  have e1 := step_send_start s hlive
  have hs : sendStart s = issue { s with
        error := ""
        busy := true
        draft := ""
        messages := s.messages ++ [{ role := .user, content := jsTrim s.draft, meta := none }] }
      .agentQuery (agentQueryRequest s (jsTrim s.draft)) := by
    simp [sendStart, hbusy, htext, htok]
  have e2 := step_resolve (sendStart s) s.pending.length o
    ⟨.agentQuery, agentQueryRequest s (jsTrim s.draft)⟩
    (by rw [hs]; exact hlive) (by rw [hs]; simp [issue])
  unfold sendComplete
  rw [e1]
  simp only
  rw [e2]
  have hl : ¬ (sendStart s).pending.length = s.pending.length := by
    rw [hs]; simp [issue]
  simp only [hl, if_false]
  rw [hs]
  simp [continuation, issue, eraseIdx_append_one]

/-- What `send` runs through when the guard lets it pass and no token is set. -/
theorem sendComplete_unauthenticated (s : ChatState) (o : FetchOutcome)
    (hlive : s.renderError = none) (hbusy : s.busy = false) (htext : jsTrim s.draft ≠ "")
    (htok : s.token = "") :
    sendComplete o s = some
      { s with
        error := ""
        busy := false
        draft := ""
        messages := s.messages ++
          [{ role := .user, content := jsTrim s.draft, meta := none }] ++ [loginPromptTurn] } := by
  have e1 := step_send_start s hlive
  unfold sendComplete
  rw [e1]
  simp [sendStart, hbusy, htext, htok]

theorem sendResume_busy (r : JS JSVal) (s : ChatState) :
    (sendResume r s).busy = false ∧ (sendResume r s).pending = s.pending := by
  unfold sendResume sendFailed
  repeat' split
  all_goals simp

/-- When the citation block could be built, the response is neither `null` nor
`undefined`, so reading a property of it cannot throw. -/
theorem citeLine_ok_getProp (resp : JSVal) (cl : String) (h : citeLine resp = .ok cl)
    (k : String) : ∃ v, getProp resp k = .ok v := by
  cases resp with
  | undefined => simp [citeLine, citationsOf, getProp] at h
  | null => simp [citeLine, citationsOf, getProp] at h
  | bool b => exact ⟨_, rfl⟩
  | num x => exact ⟨_, rfl⟩
  | str t => exact ⟨_, rfl⟩
  | arr xs => exact ⟨_, rfl⟩
  | obj fs => exact ⟨_, rfl⟩

/-- When the answer of a successful response converts to text, the rest of
`send` appends one assistant turn and the page stays live. -/
theorem sendResume_live (r : JS JSVal) (s : ChatState) (hlive : s.renderError = none)
    (hans : ∀ resp a, r = .ok resp → getProp resp "answer" = .ok a →
      ∃ t, toStr (jsOr a (.str "")) = .ok t) :
    ∃ t : Turn, t.role = .assistant ∧ (sendResume r s).messages = s.messages ++ [t] ∧
      (sendResume r s).renderError = none := by
  cases r with
  | error e => exact ⟨_, rfl, rfl, hlive⟩
  | ok resp =>
    cases hcl : citeLine resp with
    | error e =>
      refine ⟨{ role := .assistant, content := "Request failed: " ++ errorText e, meta := none },
        rfl, ?_, ?_⟩ <;> simp [sendResume, hcl, sendFailed, hlive]
    | ok cl =>
      obtain ⟨a, ha⟩ := citeLine_ok_getProp resp cl hcl "answer"
      obtain ⟨rid, hr⟩ := citeLine_ok_getProp resp cl hcl "run_id"
      obtain ⟨st, hst⟩ := citeLine_ok_getProp resp cl hcl "steps"
      obtain ⟨t, ht⟩ := hans resp a rfl ha
      have hturn : answerTurn resp cl =
          .ok ⟨.assistant, t ++ cl, some ⟨rid, jsOr st .null⟩⟩ := by
        simp [answerTurn, ha, ht, hr, hst]
      refine ⟨⟨.assistant, t ++ cl, some ⟨rid, jsOr st .null⟩⟩, rfl, ?_, ?_⟩ <;>
        simp [sendResume, hcl, hturn, hlive]

/-- C5 fails on the code: an authenticated `send` receives status 200 with the
body `{"answer":{"toString":1}}`. The busy flag is reset, but the updater that
builds the assistant turn converts the answer to text when React renders,
after `send` has left its `try` block: the TypeError it throws is not caught,
no assistant turn is appended and the render fails. -/
theorem C5_uncaught_updater_counterexample :
    (sendComplete (.response ⟨200, "OK", "\x7b\"answer\":\x7b\"toString\":1\x7d\x7d"⟩)
      { scopedState with draft := "hello" }).map
      (fun s => (s.busy, s.renderError, (s.messages.drop 1).map (fun t => t.content))) =
    some (false, some ⟨"TypeError", "Cannot convert object to primitive value"⟩, ["hello"]) := by
  rfl

/-- C5 (amended): for every state of the live page in which the guard lets
`send` pass (non-blank draft, not busy) and for every way the backend call can
settle, `send` runs to its end with the busy flag false and no call left in
flight. Unless the call succeeds with an answer that cannot be converted to
text, nothing is thrown past `send`: the page stays live and exactly the user
turn and one assistant turn (the answer, the narrated failure, or the log-in
prompt) are appended; this covers a rejected `fetch`, a response outside
200-299, a body that is `null` or lacks the expected fields, and the case
without a token. When the call succeeds with an answer whose conversion to text
throws, the error is thrown by the transcript updater while React renders,
outside the `try` block: only the user turn is appended and the render fails. -/
theorem C5_send_completes (s : ChatState) (o : FetchOutcome) (hlive : s.renderError = none)
    (hbusy : s.busy = false) (htext : jsTrim s.draft ≠ "") :
    (∃ s2, sendComplete o s = some s2 ∧ s2.busy = false ∧ s2.pending = s.pending) ∧
    ((∀ resp a, apiFetchResult o = .ok resp → getProp resp "answer" = .ok a →
        ∃ t, toStr (jsOr a (.str "")) = .ok t) →
      ∃ s2, ∃ t : Turn, sendComplete o s = some s2 ∧ s2.renderError = none ∧
        s2.busy = false ∧ t.role = .assistant ∧
        s2.messages = s.messages ++
          [{ role := .user, content := jsTrim s.draft, meta := none }, t]) ∧
    (∀ resp cl a e, s.token ≠ "" → apiFetchResult o = .ok resp → citeLine resp = .ok cl →
      getProp resp "answer" = .ok a → toStr (jsOr a (.str "")) = .error e →
      ∃ s2, sendComplete o s = some s2 ∧ s2.renderError = some e ∧ s2.busy = false ∧
        s2.messages = s.messages ++
          [{ role := .user, content := jsTrim s.draft, meta := none }]) := by
  refine ⟨?_, ?_, ?_⟩
  · by_cases htok : s.token = ""
    · exact ⟨_, sendComplete_unauthenticated s o hlive hbusy htext htok, rfl, rfl⟩
    · exact ⟨_, sendComplete_authenticated s o hlive hbusy htext htok,
        (sendResume_busy _ _).1, (sendResume_busy _ _).2⟩
  · intro hans
    by_cases htok : s.token = ""
    · exact ⟨_, loginPromptTurn, sendComplete_unauthenticated s o hlive hbusy htext htok,
        hlive, rfl, rfl, by simp⟩
    · obtain ⟨t, ht1, ht2, ht3⟩ := sendResume_live (apiFetchResult o)
        { s with
          error := ""
          busy := true
          draft := ""
          messages := s.messages ++
            [{ role := .user, content := jsTrim s.draft, meta := none }] }
        hlive hans
      refine ⟨_, t, sendComplete_authenticated s o hlive hbusy htext htok, ht3,
        (sendResume_busy _ _).1, ht1, ?_⟩
      rw [ht2]
      simp
  · intro resp cl a e htok hresp hcl ha he
    have hturn : answerTurn resp cl = .error e := by
      simp [answerTurn, ha, he]
    refine ⟨_, sendComplete_authenticated s o hlive hbusy htext htok, ?_, ?_, ?_⟩ <;>
      simp [hresp, sendResume, hcl, hturn]

theorem C5_send_completes_witness :
    (({ scopedState with draft := "hello" } : ChatState).renderError = none ∧
      ({ scopedState with draft := "hello" } : ChatState).busy = false ∧
      jsTrim ({ scopedState with draft := "hello" } : ChatState).draft ≠ "" ∧
      apiFetchResult (.response ⟨200, "OK", "null"⟩) = .ok .null) ∧
    ∃ s2, ∃ t : Turn,
      sendComplete (.response ⟨200, "OK", "null"⟩) { scopedState with draft := "hello" } =
        some s2 ∧
      s2.renderError = none ∧ s2.busy = false ∧ t.role = .assistant ∧
      s2.messages = scopedState.messages ++
        [{ role := .user, content := "hello", meta := none }, t] :=
  ⟨⟨rfl, rfl, by decide, rfl⟩,
    (C5_send_completes { scopedState with draft := "hello" } (.response ⟨200, "OK", "null"⟩)
      rfl rfl (by decide)).2.1 (by
        intro resp a h1 h2
        have h0 : apiFetchResult (.response ⟨200, "OK", "null"⟩) = .ok .null := rfl
        rw [h0] at h1
        simp only [Except.ok.injEq] at h1
        subst h1
        simp [getProp] at h2)⟩

/-- C6: for every transcript and every non-blank draft, `send` with no token
present and not busy appends exactly the user turn holding the trimmed draft
and then the fixed log-in prompt, issues no call and ends with busy false. -/
theorem C6_send_unauthenticated (s : ChatState) (hlive : s.renderError = none)
    (hbusy : s.busy = false) (htext : jsTrim s.draft ≠ "") (htok : s.token = "") :
    ∃ s1, step .send s = some s1 ∧
      s1.messages = s.messages ++
        [{ role := .user, content := jsTrim s.draft, meta := none },
         { role := .assistant,
           content := "You’re not logged in. Use the login form (left) to get a JWT, then retry.",
           meta := none }] ∧
      s1.pending = s.pending ∧ s1.busy = false := by
  refine ⟨_, step_send_start s hlive, ?_, ?_, ?_⟩ <;>
    simp [sendStart, hbusy, htext, htok, loginPromptTurn]

theorem C6_send_unauthenticated_witness :
    (({ mountedState with draft := "hello" } : ChatState).renderError = none ∧
      ({ mountedState with draft := "hello" } : ChatState).busy = false ∧
      jsTrim ({ mountedState with draft := "hello" } : ChatState).draft ≠ "" ∧
      ({ mountedState with draft := "hello" } : ChatState).token = "") ∧
    ∃ s1, step .send { mountedState with draft := "hello" } = some s1 ∧
      s1.messages = ({ mountedState with draft := "hello" } : ChatState).messages ++
        [{ role := .user,
           content := jsTrim ({ mountedState with draft := "hello" } : ChatState).draft,
           meta := none },
         { role := .assistant,
           content := "You’re not logged in. Use the login form (left) to get a JWT, then retry.",
           meta := none }] ∧
      s1.pending = ({ mountedState with draft := "hello" } : ChatState).pending ∧
      s1.busy = false :=
  ⟨⟨rfl, rfl, by decide, rfl⟩,
    C6_send_unauthenticated { mountedState with draft := "hello" } rfl rfl (by decide) rfl⟩

/-- C7 fails on the code for an error without a message: when `fetch` rejects
with a TypeError whose message is empty, the last error is not that (empty)
message but the text `TypeError`, and the assistant turn reads
`Request failed: TypeError`. -/
theorem C7_empty_message_counterexample :
    (sendComplete (.rejected ⟨"TypeError", ""⟩) { scopedState with draft := "hello" }).map
      (fun s => (s.error, (s.messages.drop 2).map (fun t => t.content))) =
    some ("TypeError", ["Request failed: TypeError"]) := by
  rfl

/-- C7 (amended): for every transcript, non-blank draft and error with a
non-empty message `m`, an authenticated `send` whose backend call fails with
that error sets the last error to `m` and appends the user turn and one
assistant turn reading `Request failed: ` followed by `m`. (An error whose
message is empty is reported by its string form instead.) A response with
status 500 and body `{"detail":"boom"}` fails with the message
`500 <statusText>: boom`. -/
theorem C7_send_failure (s : ChatState) (o : FetchOutcome) (e : JSError)
    (hlive : s.renderError = none) (hbusy : s.busy = false) (htext : jsTrim s.draft ≠ "")
    (htok : s.token ≠ "") (hfail : apiFetchResult o = .error e) (hm : e.message ≠ "") :
    (∃ s2, sendComplete o s = some s2 ∧ s2.error = e.message ∧
      s2.messages = s.messages ++
        [{ role := .user, content := jsTrim s.draft, meta := none },
         { role := .assistant, content := "Request failed: " ++ e.message, meta := none }] ∧
      s2.busy = false) ∧
    ∀ st : String,
      apiFetchResult (.response ⟨500, st, "\x7b\"detail\":\"boom\"\x7d"⟩) =
        .error ⟨"Error", "500 " ++ st ++ ": boom"⟩ := by
  constructor
  · refine ⟨_, sendComplete_authenticated s o hlive hbusy htext htok, ?_, ?_, ?_⟩ <;>
      simp [hfail, sendResume, sendFailed, errorText, hm]
  · intro st
    have hp : jsonParse "\x7b\"detail\":\"boom\"\x7d" = some (.obj [("detail", .str "boom")]) := rfl
    have hd : String.mk (natDigits 500) = "500" := rfl
    have hs : toStr (jsOr (getPropOpt (.obj [("detail", .str "boom")]) "detail")
        (pretty (.obj [("detail", .str "boom")]))) = .ok "boom" := rfl
    have hne : ("\x7b\"detail\":\"boom\"\x7d" : String) ≠ "" := by decide
    simp only [apiFetchResult, hp, hd, hne, ne_eq, not_false_eq_true, if_true, Response.ok]
    simp [isString, hs, String.append_assoc]

theorem C7_send_failure_witness :
    (({ scopedState with draft := "hello" } : ChatState).renderError = none ∧
      ({ scopedState with draft := "hello" } : ChatState).busy = false ∧
      jsTrim ({ scopedState with draft := "hello" } : ChatState).draft ≠ "" ∧
      ({ scopedState with draft := "hello" } : ChatState).token ≠ "" ∧
      apiFetchResult (.response ⟨500, "Internal Server Error", "\x7b\"detail\":\"boom\"\x7d"⟩) =
        .error ⟨"Error", "500 Internal Server Error: boom"⟩ ∧
      (⟨"Error", "500 Internal Server Error: boom"⟩ : JSError).message ≠ "") ∧
    ∃ s2, sendComplete
        (.response ⟨500, "Internal Server Error", "\x7b\"detail\":\"boom\"\x7d"⟩)
        { scopedState with draft := "hello" } = some s2 ∧
      s2.error = "500 Internal Server Error: boom" ∧
      s2.messages = scopedState.messages ++
        [{ role := .user, content := "hello", meta := none },
         { role := .assistant, content := "Request failed: 500 Internal Server Error: boom",
           meta := none }] ∧
      s2.busy = false :=
  ⟨⟨rfl, rfl, by decide, by decide, rfl, by decide⟩,
    (C7_send_failure { scopedState with draft := "hello" }
      (.response ⟨500, "Internal Server Error", "\x7b\"detail\":\"boom\"\x7d"⟩)
      ⟨"Error", "500 Internal Server Error: boom"⟩ rfl rfl (by decide) (by decide) rfl
      (by decide)).1⟩

/-- C8: for every answer string `a` and run id `r`, an authenticated `send`
that receives `{answer: a, citations: [], run_id: r}` appends, after the user
turn, an assistant turn whose content is exactly `a` (no citation block) and
whose metadata holds the run id `r` and no steps (the code stores `null` for
absent steps). -/
theorem C8_send_success_plain (s : ChatState) (o : FetchOutcome) (a r : String)
    (hlive : s.renderError = none) (hbusy : s.busy = false) (htext : jsTrim s.draft ≠ "")
    (htok : s.token ≠ "")
    (hresp : apiFetchResult o =
      .ok (.obj [("answer", .str a), ("citations", .arr []), ("run_id", .str r)])) :
    ∃ s2, sendComplete o s = some s2 ∧
      s2.messages = s.messages ++
        [{ role := .user, content := jsTrim s.draft, meta := none },
         { role := .assistant, content := a,
           meta := some { run_id := .str r, steps := .null } }] ∧
      s2.busy = false ∧ s2.error = "" := by
  refine ⟨_, sendComplete_authenticated s o hlive hbusy htext htok, ?_, ?_, ?_⟩ <;>
    by_cases ha : a = "" <;>
    simp [hresp, sendResume, citeLine, citationsOf, getProp, lookupField, jsOr, toBoolean,
      answerTurn, toStr, ha]

theorem C8_send_success_plain_witness :
    (({ scopedState with draft := "what is X?" } : ChatState).renderError = none ∧
      ({ scopedState with draft := "what is X?" } : ChatState).busy = false ∧
      jsTrim ({ scopedState with draft := "what is X?" } : ChatState).draft ≠ "" ∧
      ({ scopedState with draft := "what is X?" } : ChatState).token ≠ "" ∧
      apiFetchResult (.response ⟨200, "OK",
          "\x7b\"answer\":\"Y\",\"citations\":[],\"run_id\":\"r1\"\x7d"⟩) =
        .ok (.obj [("answer", .str "Y"), ("citations", .arr []), ("run_id", .str "r1")])) ∧
    ∃ s2, sendComplete
        (.response ⟨200, "OK", "\x7b\"answer\":\"Y\",\"citations\":[],\"run_id\":\"r1\"\x7d"⟩)
        { scopedState with draft := "what is X?" } = some s2 ∧
      s2.messages = scopedState.messages ++
        [{ role := .user, content := "what is X?", meta := none },
         { role := .assistant, content := "Y",
           meta := some { run_id := .str "r1", steps := .null } }] ∧
      s2.busy = false ∧ s2.error = "" :=
  ⟨⟨rfl, rfl, by decide, by decide, rfl⟩,
    C8_send_success_plain { scopedState with draft := "what is X?" }
      (.response ⟨200, "OK", "\x7b\"answer\":\"Y\",\"citations\":[],\"run_id\":\"r1\"\x7d"⟩)
      "Y" "r1" rfl rfl (by decide) (by decide) rfl⟩

/-- The `map` call renders one line per citation, in order, numbering from the
start index. -/
theorem citeEntries_ok (cs : List JSVal) (k : Nat) (ls : List String)
    (h : citeEntries cs k = .ok ls) :
    ls.length = cs.length ∧
    ∀ i c, cs[i]? = some c → ∃ l, ls[i]? = some l ∧ citeEntry c (k + i) = .ok l := by
  induction cs generalizing k ls with
  | nil =>
    simp only [citeEntries, Except.ok.injEq] at h
    subst h
    simp
  | cons c0 cs ih =>
    unfold citeEntries at h
    cases h0 : citeEntry c0 k with
    | error e => simp [h0] at h
    | ok l0 =>
      cases h1 : citeEntries cs (k + 1) with
      | error e => simp [h0, h1] at h
      | ok ls1 =>
        simp only [h0, h1, Except.ok.injEq] at h
        subst h
        obtain ⟨hlen, hall⟩ := ih (k + 1) ls1 h1
        refine ⟨by simp [hlen], ?_⟩
        intro i c hc
        cases i with
        | zero =>
          simp only [List.getElem?_cons_zero, Option.some.injEq] at hc
          subst hc
          exact ⟨l0, by simp, by simpa using h0⟩
        | succ j =>
          simp only [List.getElem?_cons_succ] at hc
          obtain ⟨l, hl1, hl2⟩ := hall j c hc
          refine ⟨l, by simpa using hl1, ?_⟩
          have : k + (j + 1) = k + 1 + j := by omega
          rw [this]
          exact hl2

/-- The shape of one rendered citation line. -/
theorem citeEntry_ok (c : JSVal) (i : Nat) (l : String) (h : citeEntry c i = .ok l) :
    ∃ D C sfx, l = "- [" ++ String.mk (natDigits (i + 1)) ++ "] doc=" ++ D ++ " chunk=" ++ C ++ sfx ∧
      scoreSuffix c = .ok sfx ∧
      (∃ md d, getProp c "metadata" = .ok md ∧
        getProp (jsOr md (.obj [])) "document_id" = .ok d ∧
        (if toBoolean d = true then toStr d = .ok D else D = "?")) ∧
      (∃ ch, getProp c "chunk_id" = .ok ch ∧
        (if toBoolean ch = true then toStr ch = .ok C else C = "?")) := by
  unfold citeEntry at h
  cases hd : docLabel c with
  | error e => simp [hd] at h
  | ok label =>
    cases hc : chunkLabel c with
    | error e => simp [hd, hc] at h
    | ok chunk =>
      cases hs : scoreSuffix c with
      | error e => simp [hd, hc, hs] at h
      | ok sfx =>
        simp only [hd, hc, hs, Except.ok.injEq] at h
        have hD : ∃ D md d, label = "doc=" ++ D ∧ getProp c "metadata" = .ok md ∧
            getProp (jsOr md (.obj [])) "document_id" = .ok d ∧
            (if toBoolean d = true then toStr d = .ok D else D = "?") := by
          unfold docLabel at hd
          cases hm : getProp c "metadata" with
          | error e => simp [hm] at hd
          | ok md =>
            cases hdd : getProp (jsOr md (.obj [])) "document_id" with
            | error e => simp [hm, hdd] at hd
            | ok d =>
              simp only [hm, hdd] at hd
              by_cases hb : toBoolean d = true
              · cases ht : toStr d with
                | error e => simp [hb, ht] at hd
                | ok t =>
                  simp only [hb, ht, if_true, Except.ok.injEq] at hd
                  exact ⟨t, md, d, hd.symm, rfl, hdd, by simp [hb, ht]⟩
              · simp [hb] at hd
                exact ⟨"?", md, d, hd.symm, rfl, hdd, by simp [hb]⟩
        have hC : ∃ C ch, chunk = "chunk=" ++ C ∧ getProp c "chunk_id" = .ok ch ∧
            (if toBoolean ch = true then toStr ch = .ok C else C = "?") := by
          unfold chunkLabel at hc
          cases hch : getProp c "chunk_id" with
          | error e => simp [hch] at hc
          | ok ch =>
            simp only [hch] at hc
            by_cases hb : toBoolean ch = true
            · cases ht : toStr ch with
              | error e => simp [hb, ht] at hc
              | ok t =>
                simp only [hb, ht, if_true, Except.ok.injEq] at hc
                exact ⟨t, ch, hc.symm, rfl, by simp [hb, ht]⟩
            · simp [hb] at hc
              exact ⟨"?", ch, hc.symm, rfl, by simp [hb]⟩
        obtain ⟨D, md, d, hl1, hl2, hl3, hl4⟩ := hD
        obtain ⟨C, ch, hc1, hc2, hc3⟩ := hC
        refine ⟨D, C, sfx, ?_, rfl, ⟨md, d, hl2, hl3, hl4⟩, ⟨ch, hc2, hc3⟩⟩
        rw [← h, hl1, hc1]
        apply String.ext
        simp [String.data_append]

/-- C9 fails on the code at the example of the specification: a citation that
carries `document_id` at its top level is rendered with `doc=?`, because the
code reads the id from the citation's `metadata` object. -/
theorem C9_document_id_counterexample :
    (jsonParse ("[\x7b\"document_id\":\"d1\",\"chunk_id\":\"c1\",\"score\":0.873\x7d," ++
        "\x7b\"chunk_id\":\"c2\"\x7d]")).map (fun v => citeEntries (arrayOrEmpty v) 0) =
    some (.ok ["- [1] doc=? chunk=c1 score=0.87", "- [2] doc=? chunk=c2"]) := by
  rfl

/-- C9 (amended): for every list of citations that the `map` call renders
without a conversion error, there is one line per citation, and the line of
the citation at (1-based) position `i` is `- [i] doc=<D> chunk=<C>` plus the
score suffix, where `D` is the text of the `document_id` inside the citation's
`metadata` object, or `?` if there is no metadata or its `document_id` is
missing or falsy, and `C` is the text of the citation's `chunk_id`, or `?` if
that is missing or falsy. -/
theorem C9_citation_lines (cs : List JSVal) (ls : List String)
    (h : citeEntries cs 0 = .ok ls) :
    ls.length = cs.length ∧
    ∀ i c, cs[i]? = some c →
      ∃ D C sfx,
        ls[i]? = some ("- [" ++ String.mk (natDigits (i + 1)) ++ "] doc=" ++ D ++
          " chunk=" ++ C ++ sfx) ∧
        scoreSuffix c = .ok sfx ∧
        (∃ md d, getProp c "metadata" = .ok md ∧
          getProp (jsOr md (.obj [])) "document_id" = .ok d ∧
          (if toBoolean d = true then toStr d = .ok D else D = "?")) ∧
        (∃ ch, getProp c "chunk_id" = .ok ch ∧
          (if toBoolean ch = true then toStr ch = .ok C else C = "?")) := by
  obtain ⟨hlen, hall⟩ := citeEntries_ok cs 0 ls h
  refine ⟨hlen, ?_⟩
  intro i c hc
  obtain ⟨l, hl1, hl2⟩ := hall i c hc
  rw [Nat.zero_add] at hl2
  obtain ⟨D, C, sfx, e1, e2, e3, e4⟩ := citeEntry_ok c i l hl2
  exact ⟨D, C, sfx, by rw [hl1, e1], e2, e3, e4⟩

theorem C9_citation_lines_witness :
    citeEntries exampleCitations 0 =
      .ok ["- [1] doc=d1 chunk=c1 score=0.87", "- [2] doc=? chunk=c2"] ∧
    (["- [1] doc=d1 chunk=c1 score=0.87", "- [2] doc=? chunk=c2"].length =
        exampleCitations.length ∧
      ∀ i c, exampleCitations[i]? = some c →
        ∃ D C sfx,
          ["- [1] doc=d1 chunk=c1 score=0.87", "- [2] doc=? chunk=c2"][i]? =
            some ("- [" ++ String.mk (natDigits (i + 1)) ++ "] doc=" ++ D ++
              " chunk=" ++ C ++ sfx) ∧
          scoreSuffix c = .ok sfx ∧
          (∃ md d, getProp c "metadata" = .ok md ∧
            getProp (jsOr md (.obj [])) "document_id" = .ok d ∧
            (if toBoolean d = true then toStr d = .ok D else D = "?")) ∧
          (∃ ch, getProp c "chunk_id" = .ok ch ∧
            (if toBoolean ch = true then toStr ch = .ok C else C = "?"))) :=
  ⟨rfl, C9_citation_lines exampleCitations
    ["- [1] doc=d1 chunk=c1 score=0.87", "- [2] doc=? chunk=c2"] rfl⟩

theorem isDecDigit_ofNat (k : Nat) (hk : k < 10) : isDecDigit (Char.ofNat (48 + k)) = true := by
  interval_cases k <;> rfl

theorem digitsAux_digits (fuel n : Nat) (acc : List Char)
    (hacc : ∀ c ∈ acc, isDecDigit c = true) :
    ∀ c ∈ digitsAux fuel n acc, isDecDigit c = true := by
  induction fuel generalizing n acc with
  | zero => simpa [digitsAux] using hacc
  | succ f ih =>
    have hcons : ∀ c ∈ Char.ofNat (48 + n % 10) :: acc, isDecDigit c = true := by
      intro c hc
      rcases List.mem_cons.mp hc with h | h
      · rw [h]; exact isDecDigit_ofNat _ (Nat.mod_lt _ (by decide))
      · exact hacc c h
    unfold digitsAux
    by_cases hn : n < 10
    · simpa [hn] using hcons
    · simp only [hn, if_false]
      exact ih (n / 10) _ hcons

theorem digitVal_ofNat (k : Nat) (hk : k < 10) : digitVal 10 (Char.ofNat (48 + k)) = some k := by
  interval_cases k <;> rfl

/-- Reading back the digits that `digitsAux` writes gives the number. -/
theorem digitsVal_digitsAux (fuel n : Nat) (acc : List Char) (h : n < 10 ^ fuel) :
    digitsVal 10 (digitsAux fuel n acc) 0 = digitsVal 10 acc n := by
  induction fuel generalizing n acc with
  | zero =>
    have h0 : n = 0 := by simpa using h
    simp [digitsAux, h0]
  | succ f ih =>
    unfold digitsAux
    by_cases hn : n < 10
    · simp only [hn, if_true]
      rw [Nat.mod_eq_of_lt hn]
      simp [digitsVal, digitVal_ofNat n hn]
    · simp only [hn, if_false]
      have hdiv : n / 10 < 10 ^ f := by
        rw [Nat.div_lt_iff_lt_mul (by decide)]
        rw [pow_succ] at h
        exact h
      rw [ih (n / 10) _ hdiv]
      simp only [digitsVal, digitVal_ofNat (n % 10) (Nat.mod_lt _ (by decide))]
      congr 1
      omega

theorem digitsVal_natDigits (n : Nat) : digitsVal 10 (natDigits n) 0 = some n := by
  have h : n < 10 ^ (n + 1) := Nat.lt_of_lt_of_le (Nat.lt_pow_self (by decide) n)
    (Nat.pow_le_pow_right (by decide) (Nat.le_succ n))
  simpa [natDigits, digitsVal] using digitsVal_digitsAux (n + 1) n [] h

theorem digitsVal_zeros (k : Nat) (ds : List Char) :
    digitsVal 10 (zeros k ++ ds) 0 = digitsVal 10 ds 0 := by
  induction k with
  | zero => simp [zeros]
  | succ j ih =>
    have hz : digitVal 10 '0' = some 0 := rfl
    have : zeros (j + 1) ++ ds = '0' :: (zeros j ++ ds) := by
      simp [zeros, List.replicate_succ]
    rw [this]
    simp only [digitsVal, hz]
    exact ih

/-- Below 10^21 in magnitude, `toFixed(2)` yields an optional minus sign, at
least one integer digit, a point and exactly two decimals; read without the
point, the digits are the integer nearest to a hundred times the magnitude
(the larger one on a tie). -/
theorem toFixed2_shape (neg : Bool) (m : Nat) (e : Int)
    (h : (dyadicFrac m e).1 < 10 ^ 21 * (dyadicFrac m e).2) :
    ∃ sgn ip d1 d2, toFixed2 (.fin neg m e) = String.mk (sgn ++ ip ++ ['.', d1, d2]) ∧
      (sgn = [] ∨ sgn = ['-']) ∧ ip ≠ [] ∧ (∀ c ∈ ip, isDecDigit c = true) ∧
      isDecDigit d1 = true ∧ isDecDigit d2 = true ∧
      digitsVal 10 (ip ++ [d1, d2]) 0 =
        some (((dyadicFrac m e).1 * 200 + (dyadicFrac m e).2) / (2 * (dyadicFrac m e).2)) := by
  have hlt : ¬ 10 ^ 21 * (dyadicFrac m e).2 ≤ (dyadicFrac m e).1 := by omega
  obtain ⟨n, hn⟩ : ∃ n, n = ((dyadicFrac m e).1 * 200 + (dyadicFrac m e).2) /
      (2 * (dyadicFrac m e).2) := ⟨_, rfl⟩
  obtain ⟨ds, hds⟩ : ∃ ds, ds = zeros (3 - (natDigits n).length) ++ natDigits n := ⟨_, rfl⟩
  have hdig : ∀ c ∈ ds, isDecDigit c = true := by
    intro c hc
    rw [hds] at hc
    rcases List.mem_append.mp hc with h1 | h1
    · have : c = '0' := by
        unfold zeros at h1
        exact (List.mem_replicate.mp h1).2
      rw [this]; rfl
    · exact digitsAux_digits _ _ [] (by simp) c h1
  have hlen : 3 ≤ ds.length := by
    rw [hds]; simp [zeros]; omega
  have hdrop : (ds.drop (ds.length - 2)).length = 2 := by
    rw [List.length_drop]; omega
  obtain ⟨d1, d2, h12⟩ : ∃ d1 d2, ds.drop (ds.length - 2) = [d1, d2] := by
    match hm : ds.drop (ds.length - 2), hdrop with
    | [a, b], _ => exact ⟨a, b, rfl⟩
  have htake : ds.take (ds.length - 2) ≠ [] := by
    intro h0
    have := congrArg List.length h0
    rw [List.length_take] at this
    simp at this
    omega
  have hd1 : d1 ∈ ds := List.mem_of_mem_drop (by rw [h12]; simp)
  have hd2 : d2 ∈ ds := List.mem_of_mem_drop (by rw [h12]; simp)
  have hbody : toFixed2 (.fin neg m e) =
      String.mk ((if neg = true ∧ m ≠ 0 then ['-'] else []) ++ ds.take (ds.length - 2) ++
        ['.', d1, d2]) := by
    unfold toFixed2
    simp only [hlt, if_false]
    rw [← hn, ← hds, h12]
    by_cases hs : neg = true ∧ m ≠ 0
    · simp [hs]
    · simp [hs]
  have hval : digitsVal 10 (ds.take (ds.length - 2) ++ [d1, d2]) 0 = some n := by
    rw [← h12, List.take_append_drop, hds, digitsVal_zeros]
    exact digitsVal_natDigits n
  refine ⟨if neg = true ∧ m ≠ 0 then ['-'] else [], ds.take (ds.length - 2), d1, d2, hbody,
    ?_, htake, ?_, hdig d1 hd1, hdig d2 hd2, ?_⟩
  · by_cases hs : neg = true ∧ m ≠ 0
    · right; simp [hs]
    · left; simp [hs]
  · intro c hc
    exact hdig c (List.mem_of_mem_take hc)
  · rw [hval, hn]

/-- C10 fails on the code: a citation whose score is the string `high`, a
non-numeric value, is rendered with the suffix ` score=NaN`. -/
theorem C10_non_numeric_score_counterexample :
    (jsonParse "\x7b\"chunk_id\":\"c2\",\"score\":\"high\"\x7d").map
      (fun c => (scoreSuffix c, citeEntry c 1)) =
    some (.ok " score=NaN", .ok "- [2] doc=? chunk=c2 score=NaN") := by
  rfl

/-- C10 (amended): for every citation with score field `sc`, the rendered line
carries a score suffix if and only if `sc` is neither absent nor `null`. The
suffix is ` score=` followed by `Number(sc).toFixed(2)`: a non-numeric score
that is not `null` is converted and rendered as well. For a numeric score of
magnitude below 10^21 the text after ` score=` is an optional minus sign,
integer digits, a point and exactly two decimals, the digits being the integer
nearest to a hundred times the magnitude (the larger one on a tie). -/
theorem C10_score_suffix (c sc : JSVal) (h : getProp c "score" = .ok sc) :
    (notNullish sc = false → scoreSuffix c = .ok "") ∧
    (notNullish sc = true →
      scoreSuffix c = (toNumber sc).map (fun x => " score=" ++ toFixed2 x)) ∧
    (∀ sfx, scoreSuffix c = .ok sfx → (sfx ≠ "" ↔ notNullish sc = true)) ∧
    (∀ x, sc = .num x → scoreSuffix c = .ok (" score=" ++ toFixed2 x)) ∧
    (∀ neg m e, sc = .num (.fin neg m e) →
      (dyadicFrac m e).1 < 10 ^ 21 * (dyadicFrac m e).2 →
      ∃ sgn ip d1 d2,
        scoreSuffix c = .ok (" score=" ++ String.mk (sgn ++ ip ++ ['.', d1, d2])) ∧
        (sgn = [] ∨ sgn = ['-']) ∧ ip ≠ [] ∧ (∀ ch ∈ ip, isDecDigit ch = true) ∧
        isDecDigit d1 = true ∧ isDecDigit d2 = true ∧
        digitsVal 10 (ip ++ [d1, d2]) 0 =
          some (((dyadicFrac m e).1 * 200 + (dyadicFrac m e).2) / (2 * (dyadicFrac m e).2))) := by
  have hnum : ∀ x, sc = .num x → scoreSuffix c = .ok (" score=" ++ toFixed2 x) := by
    intro x hx
    simp [scoreSuffix, h, hx, notNullish, toNumber]
  refine ⟨?_, ?_, ?_, hnum, ?_⟩
  · intro hn
    simp [scoreSuffix, h, hn]
  · intro hn
    simp only [scoreSuffix, h, hn, if_true]
    cases toNumber sc <;> rfl
  · intro sfx hs
    by_cases hn : notNullish sc = true
    · simp only [scoreSuffix, h, hn, if_true] at hs
      cases hx : toNumber sc with
      | error e => simp [hx] at hs
      | ok x =>
        simp only [hx, Except.ok.injEq] at hs
        constructor
        · intro _; exact hn
        · intro _ h0
          rw [← hs] at h0
          have := congrArg String.length h0
          simp only [String.length_append] at this
          have h7 : (" score=" : String).length = 7 := by decide
          rw [h7] at this
          exact absurd this (by simp)
    · simp [scoreSuffix, h, hn] at hs
      simp [hn, ← hs]
  · intro neg m e hx hsmall
    obtain ⟨sgn, ip, d1, d2, e1, e2, e3, e4, e5, e6, e7⟩ := toFixed2_shape neg m e hsmall
    exact ⟨sgn, ip, d1, d2, by rw [hnum _ hx, e1], e2, e3, e4, e5, e6, e7⟩

theorem C10_score_suffix_witness :
    getProp (.obj [("chunk_id", .str "c1"), ("score", .num score0873)]) "score" =
      .ok (.num score0873) ∧
    scoreSuffix (.obj [("chunk_id", .str "c1"), ("score", .num score0873)]) =
      .ok " score=0.87" ∧
    scoreSuffix (.obj [("chunk_id", .str "c1")]) = .ok "" :=
  ⟨rfl,
    (C10_score_suffix (.obj [("chunk_id", .str "c1"), ("score", .num score0873)])
      (.num score0873) rfl).2.2.2.1 score0873 rfl,
    (C10_score_suffix (.obj [("chunk_id", .str "c1")]) .undefined rfl).1 rfl⟩

/-! ## The citation block -/

theorem toStr_primitive (v : JSVal) (h : isPrimitive v = true) : ∃ t, toStr v = .ok t := by
  cases v <;> simp_all [isPrimitive, toStr]

theorem toNumber_primitive (v : JSVal) (h : isPrimitive v = true) : ∃ x, toNumber v = .ok x := by
  cases v <;> simp_all [isPrimitive, toNumber]

/-- On a value that is neither `null` nor `undefined`, a property read cannot
throw. -/
theorem getProp_notNullish (v : JSVal) (k : String) (h : notNullish v = true) :
    getProp v k = .ok (getPropOpt v k) := by
  cases v <;> simp_all [notNullish, getProp, getPropOpt]

theorem notNullish_of_truthy (v : JSVal) (h : toBoolean v = true) : notNullish v = true := by
  cases v <;> simp_all [notNullish, toBoolean]

theorem getProp_jsOr_obj (md : JSVal) (k : String) :
    getProp (jsOr md (.obj [])) k = .ok (getPropOpt (jsOr md (.obj [])) k) := by
  apply getProp_notNullish
  unfold jsOr
  by_cases h : toBoolean md = true
  · simp only [h, if_true]; exact notNullish_of_truthy md h
  · simp only [h]; rfl

/-- A citation record whose ids and score are primitive values renders. -/
theorem citeEntry_record (fs : List (String × JSVal)) (i : Nat)
    (h1 : isPrimitive (getPropOpt (jsOr (lookupField "metadata" fs) (.obj [])) "document_id") = true)
    (h2 : isPrimitive (lookupField "chunk_id" fs) = true)
    (h3 : isPrimitive (lookupField "score" fs) = true) :
    ∃ l, citeEntry (.obj fs) i = .ok l := by
  obtain ⟨t1, ht1⟩ := toStr_primitive _ h1
  obtain ⟨t2, ht2⟩ := toStr_primitive _ h2
  obtain ⟨x, hx⟩ := toNumber_primitive _ h3
  have g1 : getProp (.obj fs) "metadata" = .ok (lookupField "metadata" fs) := rfl
  have g2 : getProp (.obj fs) "chunk_id" = .ok (lookupField "chunk_id" fs) := rfl
  have g3 : getProp (.obj fs) "score" = .ok (lookupField "score" fs) := rfl
  have hd : ∃ D, docLabel (.obj fs) = .ok D := by
    unfold docLabel
    rw [g1]
    simp only
    rw [getProp_jsOr_obj]
    simp only
    split_ifs
    · exact ⟨"doc=" ++ t1, by rw [ht1]⟩
    · exact ⟨"doc=?", rfl⟩
  have hc : ∃ C, chunkLabel (.obj fs) = .ok C := by
    unfold chunkLabel
    rw [g2]
    simp only
    split_ifs
    · exact ⟨"chunk=" ++ t2, by rw [ht2]⟩
    · exact ⟨"chunk=?", rfl⟩
  have hs : ∃ S, scoreSuffix (.obj fs) = .ok S := by
    unfold scoreSuffix
    rw [g3]
    simp only
    split_ifs
    · exact ⟨" score=" ++ toFixed2 x, by rw [hx]⟩
    · exact ⟨"", rfl⟩
  obtain ⟨D, hD⟩ := hd
  obtain ⟨C, hC⟩ := hc
  obtain ⟨S, hS⟩ := hs
  exact ⟨"- [" ++ String.mk (natDigits (i + 1)) ++ "] " ++ D ++ " " ++ C ++ S,
    by simp [citeEntry, hD, hC, hS]⟩

/-- When every entry renders, the `map` call returns a list of lines. -/
theorem citeEntries_total (cs : List JSVal) (h : ∀ c ∈ cs, ∀ i, ∃ l, citeEntry c i = .ok l)
    (k : Nat) : ∃ ls, citeEntries cs k = .ok ls := by
  induction cs generalizing k with
  | nil => exact ⟨[], rfl⟩
  | cons c cs ih =>
    obtain ⟨l, hl⟩ := h c (List.mem_cons_self c cs) k
    obtain ⟨ls, hls⟩ := ih (fun c1 hc1 => h c1 (List.mem_cons_of_mem c hc1)) (k + 1)
    exact ⟨l :: ls, by simp [citeEntries, hl, hls]⟩

/-- C11: for every response carrying `n` citations, that is, whose `citations`
field is an array of `n` citation records (objects whose document id, chunk id
and score, where present, are primitive values) or is missing (`n = 0`), the
citation block consists of exactly `min n 5` lines; line `i` (counting from 0)
is the rendering of the citation at position `i` and starts with the number
`i + 1`; the block is the header `Sources:` followed by these lines, and it is
empty when `n = 0`. -/
theorem C11_citation_block (resp cv : JSVal) (cs : List JSVal)
    (hc : getProp resp "citations" = .ok cv) (harr : jsOr cv (.arr []) = .arr cs)
    (hw : ∀ c ∈ cs.take 5, ∃ fs, c = .obj fs ∧
      isPrimitive (getPropOpt (jsOr (lookupField "metadata" fs) (.obj [])) "document_id") = true ∧
      isPrimitive (lookupField "chunk_id" fs) = true ∧
      isPrimitive (lookupField "score" fs) = true) :
    ∃ ls : List String, ls.length = min cs.length 5 ∧
      (∀ i c, i < 5 → cs[i]? = some c →
        ∃ l, ls[i]? = some l ∧ citeEntry c i = .ok l ∧
          ∃ rest, l = "- [" ++ String.mk (natDigits (i + 1)) ++ "] " ++ rest) ∧
      (cs = [] → citeLine resp = .ok "") ∧
      (cs ≠ [] → citeLine resp = .ok ("\n\nSources:\n" ++ joinWith "\n" ls)) := by
  have hcit : citationsOf resp = .ok (cs.take 5) := by
    simp [citationsOf, hc, harr]
  have hren : ∀ c ∈ cs.take 5, ∀ i, ∃ l, citeEntry c i = .ok l := by
    intro c hmem i
    obtain ⟨fs, hfs, h1, h2, h3⟩ := hw c hmem
    rw [hfs]
    exact citeEntry_record fs i h1 h2 h3
  obtain ⟨ls, hls⟩ := citeEntries_total (cs.take 5) hren 0
  obtain ⟨hlen, hall⟩ := citeEntries_ok (cs.take 5) 0 ls hls
  refine ⟨ls, ?_, ?_, ?_, ?_⟩
  · rw [hlen, List.length_take, Nat.min_comm]
  · intro i c hi hci
    have hti : (cs.take 5)[i]? = some c := by
      rw [List.getElem?_take_of_lt hi]; exact hci
    obtain ⟨l, hl1, hl2⟩ := hall i c hti
    rw [Nat.zero_add] at hl2
    obtain ⟨D, C, sfx, e1, -⟩ := citeEntry_ok c i l hl2
    refine ⟨l, hl1, hl2, "doc=" ++ D ++ " chunk=" ++ C ++ sfx, ?_⟩
    rw [e1]
    apply String.ext
    simp [String.data_append]
  · intro h0
    subst h0
    simp [citeLine, hcit]
  · intro hne
    have hpos : (cs.take 5).length > 0 := by
      cases cs with
      | nil => exact absurd rfl hne
      | cons c cs => simp
    simp only [citeLine, hcit, hpos, if_true, hls]

theorem sevenCitations_records :
    ∀ c ∈ sevenCitations.take 5, ∃ fs, c = .obj fs ∧
      isPrimitive (getPropOpt (jsOr (lookupField "metadata" fs) (.obj [])) "document_id") = true ∧
      isPrimitive (lookupField "chunk_id" fs) = true ∧
      isPrimitive (lookupField "score" fs) = true := by
  intro c hc
  simp only [sevenCitations, List.take, List.mem_cons, List.mem_nil_iff, or_false] at hc
  rcases hc with h | h | h | h | h <;> subst h <;> exact ⟨_, rfl, rfl, rfl, rfl⟩

theorem C11_citation_block_witness :
    (getProp (.obj [("answer", .str "Y"), ("citations", .arr sevenCitations)]) "citations" =
        .ok (.arr sevenCitations) ∧
      jsOr (.arr sevenCitations) (.arr []) = .arr sevenCitations ∧
      citeLine (.obj [("answer", .str "Y"), ("citations", .arr sevenCitations)]) =
        .ok ("\n\nSources:\n- [1] doc=? chunk=c1\n- [2] doc=? chunk=c2\n" ++
          "- [3] doc=? chunk=c3\n- [4] doc=? chunk=c4\n- [5] doc=? chunk=c5")) ∧
    ∃ ls : List String, ls.length = min sevenCitations.length 5 ∧
      (∀ i c, i < 5 → sevenCitations[i]? = some c →
        ∃ l, ls[i]? = some l ∧ citeEntry c i = .ok l ∧
          ∃ rest, l = "- [" ++ String.mk (natDigits (i + 1)) ++ "] " ++ rest) ∧
      (sevenCitations = [] →
        citeLine (.obj [("answer", .str "Y"), ("citations", .arr sevenCitations)]) = .ok "") ∧
      (sevenCitations ≠ [] →
        citeLine (.obj [("answer", .str "Y"), ("citations", .arr sevenCitations)]) =
          .ok ("\n\nSources:\n" ++ joinWith "\n" ls)) :=
  ⟨⟨rfl, rfl, rfl⟩,
    C11_citation_block (.obj [("answer", .str "Y"), ("citations", .arr sevenCitations)])
      (.arr sevenCitations) sevenCitations rfl rfl sevenCitations_records⟩

/-! ## Turn metadata -/

/-- What the updater of the `try` block puts into the turn. -/
theorem answerTurn_ok (resp : JSVal) (cl : String) (turn : Turn)
    (h : answerTurn resp cl = .ok turn) :
    ∃ a ans r st, getProp resp "answer" = .ok a ∧ toStr (jsOr a (.str "")) = .ok ans ∧
      getProp resp "run_id" = .ok r ∧ getProp resp "steps" = .ok st ∧
      turn = { role := .assistant, content := ans ++ cl,
               meta := some { run_id := r, steps := jsOr st .null } } := by
  unfold answerTurn at h
  cases ha : getProp resp "answer" with
  | error e => simp [ha] at h
  | ok a =>
    cases hs : toStr (jsOr a (.str "")) with
    | error e => simp [ha, hs] at h
    | ok ans =>
      cases hr : getProp resp "run_id" with
      | error e => simp [ha, hs, hr] at h
      | ok r =>
        cases hst : getProp resp "steps" with
        | error e => simp [ha, hs, hr, hst] at h
        | ok st =>
          simp only [ha, hs, hr, hst, Except.ok.injEq] at h
          exact ⟨a, ans, r, st, rfl, hs, rfl, rfl, h.symm⟩

/-- C12 fails on the code: with trace display switched off, a response that
carries steps still gets them attached to the assistant turn. -/
theorem C12_steps_without_trace_counterexample :
    (sendComplete
      (.response ⟨200, "OK", "\x7b\"answer\":\"Y\",\"run_id\":\"r1\",\"steps\":[\"plan\"]\x7d"⟩)
      { scopedState with draft := "hello", showTrace := false }).map
      (fun s => (s.showTrace,
        (s.messages.drop 2).map (fun t => t.meta.map (fun m => (m.run_id, m.steps))))) =
    some (false, [some (.str "r1", .arr [.str "plan"])]) := by
  rfl

/-- C12 (amended): for every successful agent query (the call settles with a
body `resp` from which the citation block and the turn can be built), the
appended assistant turn's metadata carries `run_id` as the response has it and
carries the steps of the response whenever the response has (truthy) steps,
`null` otherwise, whether trace display is on or off. Trace display only
decides the `return_steps` flag of the request. -/
theorem C12_turn_metadata (s : ChatState) (o : FetchOutcome) (resp : JSVal) (cl : String)
    (turn : Turn) (hlive : s.renderError = none) (hbusy : s.busy = false)
    (htext : jsTrim s.draft ≠ "") (htok : s.token ≠ "")
    (hresp : apiFetchResult o = .ok resp) (hcl : citeLine resp = .ok cl)
    (hturn : answerTurn resp cl = .ok turn) :
    (∃ s2, sendComplete o s = some s2 ∧
      s2.messages = s.messages ++
        [{ role := .user, content := jsTrim s.draft, meta := none }, turn]) ∧
    (∃ r st, getProp resp "run_id" = .ok r ∧ getProp resp "steps" = .ok st ∧
      turn.meta = some { run_id := r, steps := jsOr st .null } ∧
      (toBoolean st = true → jsOr st .null = st) ∧
      (toBoolean st = false → jsOr st .null = .null)) ∧
    (agentQueryRequest s (jsTrim s.draft)).body =
      jsonStringify (.obj [("message", .str (jsTrim s.draft)),
        ("project_id", idOrNull s.selectedProjectId),
        ("kb_id", idOrNull s.selectedKbId),
        ("document_id", idOrNull s.selectedDocId),
        ("top_k", .num s.topK),
        ("return_steps", .bool s.showTrace)]) := by
  refine ⟨⟨_, sendComplete_authenticated s o hlive hbusy htext htok, ?_⟩, ?_, rfl⟩
  · simp [hresp, sendResume, hcl, hturn]
  · obtain ⟨a, ans, r, st, -, -, hr, hst, ht⟩ := answerTurn_ok resp cl turn hturn
    refine ⟨r, st, hr, hst, by rw [ht], ?_, ?_⟩
    · intro hb; simp [jsOr, hb]
    · intro hb; simp [jsOr, hb]

theorem C12_turn_metadata_witness :
    (({ scopedState with draft := "hello", showTrace := false } : ChatState).renderError = none ∧
      ({ scopedState with draft := "hello", showTrace := false } : ChatState).busy = false ∧
      jsTrim ({ scopedState with draft := "hello", showTrace := false } : ChatState).draft ≠ "" ∧
      ({ scopedState with draft := "hello", showTrace := false } : ChatState).token ≠ "" ∧
      apiFetchResult (.response ⟨200, "OK",
          "\x7b\"answer\":\"Y\",\"run_id\":\"r1\",\"steps\":[\"plan\"]\x7d"⟩) =
        .ok (.obj [("answer", .str "Y"), ("run_id", .str "r1"), ("steps", .arr [.str "plan"])]) ∧
      citeLine (.obj [("answer", .str "Y"), ("run_id", .str "r1"),
        ("steps", .arr [.str "plan"])]) = .ok "" ∧
      answerTurn (.obj [("answer", .str "Y"), ("run_id", .str "r1"),
        ("steps", .arr [.str "plan"])]) "" =
        .ok { role := .assistant, content := "Y",
              meta := some { run_id := .str "r1", steps := .arr [.str "plan"] } }) ∧
    ∃ s2, sendComplete
        (.response ⟨200, "OK", "\x7b\"answer\":\"Y\",\"run_id\":\"r1\",\"steps\":[\"plan\"]\x7d"⟩)
        { scopedState with draft := "hello", showTrace := false } = some s2 ∧
      s2.messages = scopedState.messages ++
        [{ role := .user, content := "hello", meta := none },
         { role := .assistant, content := "Y",
           meta := some { run_id := .str "r1", steps := .arr [.str "plan"] } }] :=
  ⟨⟨rfl, rfl, by decide, by decide, rfl, rfl, rfl⟩,
    (C12_turn_metadata { scopedState with draft := "hello", showTrace := false }
      (.response ⟨200, "OK", "\x7b\"answer\":\"Y\",\"run_id\":\"r1\",\"steps\":[\"plan\"]\x7d"⟩)
      (.obj [("answer", .str "Y"), ("run_id", .str "r1"), ("steps", .arr [.str "plan"])])
      ""
      { role := .assistant, content := "Y",
        meta := some { run_id := .str "r1", steps := .arr [.str "plan"] } }
      rfl rfl (by decide) (by decide) rfl rfl rfl).1⟩

/-! ## Refreshing the lists -/

/-- Source function `apiFetch` on a response, in terms of the decoded body. -/
theorem apiFetchResult_response (res : Response) :
    apiFetchResult (.response res) =
      if !res.ok then
        match toStr (if isString (decodeBody res.text) then decodeBody res.text
            else jsOr (getPropOpt (decodeBody res.text) "detail") (pretty (decodeBody res.text))) with
        | .error e => .error e
        | .ok m =>
          .error ⟨"Error",
            String.mk (natDigits res.status) ++ " " ++ res.statusText ++ ": " ++ m⟩
      else .ok (decodeBody res.text) := by
  rfl

/-- A rejected `fetch` and a response outside 200-299 both make `apiFetch`
throw. -/
theorem apiFetchResult_fails (o : FetchOutcome)
    (h : (∃ e, o = .rejected e) ∨ (∃ res, o = .response res ∧ res.ok = false)) :
    ∃ e, apiFetchResult o = .error e := by
  rcases h with ⟨e, he⟩ | ⟨res, hres, hok⟩
  · exact ⟨e, by rw [he]; rfl⟩
  · subst hres
    rw [apiFetchResult_response]
    simp only [hok, Bool.not_false, if_true]
    cases toStr (if isString (decodeBody res.text) then decodeBody res.text
        else jsOr (getPropOpt (decodeBody res.text) "detail") (pretty (decodeBody res.text))) with
    | error e => exact ⟨e, rfl⟩
    | ok m => exact ⟨_, rfl⟩

/-- A response in 200-299 makes `apiFetch` return the decoded body. -/
theorem apiFetchResult_succeeds (res : Response) (h : res.ok = true) :
    apiFetchResult (.response res) = .ok (decodeBody res.text) := by
  rw [apiFetchResult_response]
  simp [h]

/-- C13 fails on the code: the project list is loaded, a later refresh fails
with status 500, and the list still holds the loaded project. -/
theorem C13_failed_refresh_counterexample :
    ((mount none).bind (run
      [.resolve 0 (.response ⟨200, "OK", "[\x7b\"id\":\"p1\"\x7d]"⟩),
       .refreshClick,
       .resolve 1 (.response ⟨500, "Internal Server Error", "\x7b\"detail\":\"boom\"\x7d"⟩)])).map
      (fun s => s.projects) =
    some [.obj [("id", .str "p1")]] := by
  rfl

/-- C13 (amended): for every refresh of the project, KB or document list, when
the call fails (a rejected `fetch` or a response outside 200-299) all three
lists are left as they were; when it succeeds, the list of that call becomes
the decoded body if that is an array, and the empty list otherwise. -/
theorem C13_refresh_outcome (s : ChatState) (i : Nat) (o : FetchOutcome) (p : Pending)
    (hlive : s.renderError = none) (hp : s.pending[i]? = some p)
    (hkind : p.kind = .projects ∨ p.kind = .kbs ∨ p.kind = .docs) :
    ∃ s1, step (.resolve i o) s = some s1 ∧
      (((∃ e, o = .rejected e) ∨ (∃ res, o = .response res ∧ res.ok = false)) →
        s1.projects = s.projects ∧ s1.kbs = s.kbs ∧ s1.documents = s.documents) ∧
      (∀ res, o = .response res → res.ok = true →
        ∃ data, apiFetchResult o = .ok data ∧
          (p.kind = .projects → s1.projects = arrayOrEmpty data) ∧
          (p.kind = .kbs → s1.kbs = arrayOrEmpty data) ∧
          (p.kind = .docs → s1.documents = arrayOrEmpty data) ∧
          (∀ xs, data = .arr xs → arrayOrEmpty data = xs) ∧
          ((∀ xs, data ≠ .arr xs) → arrayOrEmpty data = [])) := by
  refine ⟨_, step_resolve s i o p hlive hp, ?_, ?_⟩
  · intro hfail
    obtain ⟨e, he⟩ := apiFetchResult_fails o hfail
    rw [he]
    rcases hkind with hk | hk | hk <;> rw [hk] <;> exact ⟨rfl, rfl, rfl⟩
  · intro res hres hok
    subst hres
    have hd := apiFetchResult_succeeds res hok
    refine ⟨decodeBody res.text, hd, ?_, ?_, ?_, ?_, ?_⟩
    · intro hk; rw [hk, hd]; rfl
    · intro hk; rw [hk, hd]; rfl
    · intro hk; rw [hk, hd]; rfl
    · intro xs hx; rw [hx]; rfl
    · intro hna
      cases hdd : decodeBody res.text with
      | arr xs => exact absurd hdd (hna xs)
      | _ => rfl

theorem C13_refresh_outcome_witness :
    (refreshingState.renderError = none ∧
      refreshingState.pending[0]? =
        some ⟨.projects, refreshProjectsRequest "http://localhost:8000"⟩ ∧
      (⟨.projects, refreshProjectsRequest "http://localhost:8000"⟩ : Pending).kind = .projects) ∧
    ∃ s1, step (.resolve 0 (.rejected ⟨"TypeError", "Failed to fetch"⟩)) refreshingState =
        some s1 ∧
      s1.projects = [.obj [("id", .str "p1"), ("name", .str "P")]] ∧
      s1.kbs = refreshingState.kbs ∧ s1.documents = refreshingState.documents :=
  ⟨⟨rfl, rfl, rfl⟩,
    (C13_refresh_outcome refreshingState 0 (.rejected ⟨"TypeError", "Failed to fetch"⟩)
      ⟨.projects, refreshProjectsRequest "http://localhost:8000"⟩ rfl rfl (Or.inl rfl)).elim
      (fun s1 h => ⟨s1, h.1, h.2.1 (Or.inl ⟨_, rfl⟩)⟩)⟩

/-! ## The result of `apiFetch` -/

theorem parseElems_arr (fuel : Nat) (cs : List Char) (acc : List JSVal) (v : JSVal)
    (r : List Char) (h : parseElems fuel cs acc = some (v, r)) : ∃ xs, v = .arr xs := by
  induction fuel generalizing cs acc with
  | zero => simp [parseElems] at h
  | succ f ih =>
    unfold parseElems at h
    repeat' split at h
    all_goals first
      | exact ih _ _ h
      | (simp only [Option.some.injEq, Prod.mk.injEq] at h; exact ⟨_, h.1.symm⟩)
      | (simp at h)

theorem parseMembers_obj (fuel : Nat) (cs : List Char) (acc : List (String × JSVal))
    (v : JSVal) (r : List Char) (h : parseMembers fuel cs acc = some (v, r)) :
    ∃ fs, v = .obj fs := by
  induction fuel generalizing cs acc with
  | zero => simp [parseMembers] at h
  | succ f ih =>
    unfold parseMembers at h
    repeat' split at h
    all_goals first
      | exact ih _ _ h
      | (simp only [Option.some.injEq, Prod.mk.injEq] at h; exact ⟨_, h.1.symm⟩)
      | (simp at h)

/-- The parser never yields `undefined`. -/
theorem parseValue_defined (fuel : Nat) (cs : List Char) (v : JSVal) (r : List Char)
    (h : parseValue fuel cs = some (v, r)) : v ≠ .undefined := by
  cases fuel with
  | zero => simp [parseValue] at h
  | succ f =>
    unfold parseValue at h
    repeat' split at h
    all_goals first
      | (obtain ⟨xs, hx⟩ := parseElems_arr _ _ _ _ _ h; rw [hx]; simp)
      | (obtain ⟨xs, hx⟩ := parseMembers_obj _ _ _ _ _ h; rw [hx]; simp)
      | (simp only [Option.some.injEq, Prod.mk.injEq] at h; rw [← h.1]; simp)
      | (simp at h)

theorem jsonParse_defined (text : String) (v : JSVal) (h : jsonParse text = some v) :
    v ≠ .undefined := by
  unfold jsonParse at h
  split at h
  · split at h
    · simp only [Option.some.injEq] at h
      subst h
      exact parseValue_defined _ _ _ _ (by assumption)
    · simp at h
  · simp at h

theorem decodeBody_defined (text : String) : decodeBody text ≠ .undefined := by
  unfold decodeBody
  split
  · split
    · exact jsonParse_defined text _ (by assumption)
    · simp
  · simp

/-- Every value but `undefined` has a pretty-printed form. -/
theorem pretty_defined (v : JSVal) (h : v ≠ .undefined) : ∃ p, pretty v = .str p := by
  cases v with
  | undefined => exact absurd rfl h
  | null => simp [pretty, serialize]
  | bool b => simp [pretty, serialize]
  | num x => simp [pretty, serialize]
  | str s => simp [pretty, serialize]
  | arr xs => simp [pretty, serialize]
  | obj fs => simp [pretty, serialize]

/-- C14 fails on the code: an empty body, which is no valid JSON, is reported
as `null` and not verbatim; a body that is a JSON string is reported decoded,
without its quotes; a 2xx response with an empty body returns `null`. -/
theorem C14_empty_body_counterexample :
    apiFetchResult (.response ⟨500, "Internal Server Error", ""⟩) =
      .error ⟨"Error", "500 Internal Server Error: null"⟩ ∧
    apiFetchResult (.response ⟨500, "Internal Server Error", "\"boom\""⟩) =
      .error ⟨"Error", "500 Internal Server Error: boom"⟩ ∧
    apiFetchResult (.response ⟨200, "OK", ""⟩) = .ok .null :=
  ⟨rfl, rfl, rfl⟩

/-- C14 (amended): let `d` be the decoded body of a response: `null` when the
body text is empty, the parsed JSON when the text parses, the text itself
otherwise. For a response in 200-299 `apiFetch` returns `d`. For any other
response it throws. When `d` is a string, the error is an Error with message
`<status> <statusText>: ` followed by that string. Otherwise, when the `detail`
field of `d` is truthy, the message ends in the text of `detail` (and if that
text cannot be formed, the TypeError of the conversion is thrown instead).
Otherwise the message ends in the dump of `d` with two-space indentation. -/
theorem C14_apiFetch_result (res : Response) :
    ((res.text = "" → decodeBody res.text = .null) ∧
      (res.text ≠ "" → jsonParse res.text = none → decodeBody res.text = .str res.text) ∧
      (∀ v, jsonParse res.text = some v → decodeBody res.text = v)) ∧
    (res.ok = true → apiFetchResult (.response res) = .ok (decodeBody res.text)) ∧
    (res.ok = false →
      (∀ t, decodeBody res.text = .str t →
        apiFetchResult (.response res) = .error ⟨"Error",
          String.mk (natDigits res.status) ++ " " ++ res.statusText ++ ": " ++ t⟩) ∧
      (isString (decodeBody res.text) = false →
        toBoolean (getPropOpt (decodeBody res.text) "detail") = true →
        (∀ t, toStr (getPropOpt (decodeBody res.text) "detail") = .ok t →
          apiFetchResult (.response res) = .error ⟨"Error",
            String.mk (natDigits res.status) ++ " " ++ res.statusText ++ ": " ++ t⟩) ∧
        (∀ e, toStr (getPropOpt (decodeBody res.text) "detail") = .error e →
          apiFetchResult (.response res) = .error e)) ∧
      (isString (decodeBody res.text) = false →
        toBoolean (getPropOpt (decodeBody res.text) "detail") = false →
        ∃ p, serialize "  " "" (decodeBody res.text) = some p ∧
          apiFetchResult (.response res) = .error ⟨"Error",
            String.mk (natDigits res.status) ++ " " ++ res.statusText ++ ": " ++ p⟩)) := by
  refine ⟨⟨?_, ?_, ?_⟩, apiFetchResult_succeeds res, ?_⟩
  · intro h; simp [decodeBody, h]
  · intro h hp; simp [decodeBody, h, hp]
  · intro v hv
    have hne : res.text ≠ "" := by
      intro h0
      rw [h0] at hv
      have : jsonParse "" = none := rfl
      rw [this] at hv
      exact absurd hv (by simp)
    simp [decodeBody, hne, hv]
  · intro hok
    rw [apiFetchResult_response]
    simp only [hok, Bool.not_false, if_true]
    refine ⟨?_, ?_, ?_⟩
    · intro t ht
      simp [ht, isString, toStr]
    · intro hs hb
      simp only [hs, Bool.false_eq_true, if_false, jsOr, hb, if_true]
      exact ⟨fun t ht => by rw [ht], fun e he => by rw [he]⟩
    · intro hs hb
      obtain ⟨p, hp⟩ := pretty_defined _ (decodeBody_defined res.text)
      have hser : serialize "  " "" (decodeBody res.text) = some p := by
        unfold pretty at hp
        split at hp
        · simp only [JSVal.str.injEq] at hp
          rw [← hp]; assumption
        · exact absurd hp (by simp)
      refine ⟨p, hser, ?_⟩
      simp only [hs, Bool.false_eq_true, if_false, jsOr, hb, hp, toStr]

/-! ## The Authorization header -/

theorem step_refreshClick (s : ChatState) (hlive : s.renderError = none) :
    step .refreshClick s =
      some { s with pending := s.pending ++ [⟨.projects, refreshProjectsRequest s.apiBase⟩] } := by
  have hh : handle .refreshClick s =
      { s with pending := s.pending ++ [⟨.projects, refreshProjectsRequest s.apiBase⟩] } := by
    simp [handle, hlive, issue]
  have := step_of_sameDeps .refreshClick s (by rw [hh]; simp [sameDeps])
  rw [hh] at this
  exact this

/-- C15 fails on the code: with the token `tok` present, the refresh button,
a project change, a knowledge-base change and a document change issue their
four calls without any header. -/
theorem C15_refresh_without_token_counterexample :
    (run [.refreshClick, .selectProject "p2", .selectKb "kb2", .selectDoc "d2"] scopedState).map
      (fun s => (s.token, s.pending.map (fun p => (p.kind, p.request.headers)))) =
    some ("tok", [(.projects, []), (.kbs, []), (.docs, []), (.profile, [])]) := by
  rfl

/-- C15 (amended): for every state of the (live) page in which a non-empty
token is present, only the agent query passes the token to `apiFetch`: its
request carries `Authorization: Bearer <token>`. The calls that list projects,
KBs and documents and the call that loads the document profile are issued
without the token, and their requests carry no header at all. -/
theorem C15_authorization_header (s : ChatState) (hlive : s.renderError = none)
    (htok : s.token ≠ "") :
    (s.busy = false → jsTrim s.draft ≠ "" →
      ∃ s1, step .send s = some s1 ∧
        s1.pending = s.pending ++ [⟨.agentQuery, agentQueryRequest s (jsTrim s.draft)⟩] ∧
        (agentQueryRequest s (jsTrim s.draft)).headers =
          [("Authorization", "Bearer " ++ s.token), ("Content-Type", "application/json")]) ∧
    (∃ s1, step .refreshClick s = some s1 ∧
      s1.pending = s.pending ++ [⟨.projects, refreshProjectsRequest s.apiBase⟩] ∧
      (refreshProjectsRequest s.apiBase).headers = []) ∧
    (∀ p, p ≠ s.selectedProjectId →
      ∃ s1, step (.selectProject p) s = some s1 ∧
        s1.pending = s.pending ++ [⟨.kbs, refreshKbsRequest s.apiBase p⟩] ∧
        (refreshKbsRequest s.apiBase p).headers = []) ∧
    (∀ k, k ≠ s.selectedKbId → k ≠ "" →
      ∃ s1, step (.selectKb k) s = some s1 ∧
        s1.pending = s.pending ++ [⟨.docs, refreshDocsRequest s.apiBase k⟩] ∧
        (refreshDocsRequest s.apiBase k).headers = []) ∧
    (∀ d, d ≠ s.selectedDocId → d ≠ "" →
      ∃ s1, step (.selectDoc d) s = some s1 ∧
        s1.pending = s.pending ++ [⟨.profile, profileRequest s.apiBase d⟩] ∧
        (profileRequest s.apiBase d).headers = []) := by
  refine ⟨?_, ?_, ?_, ?_, ?_⟩
  · intro hbusy htext
    refine ⟨_, step_send_start s hlive, ?_, ?_⟩
    · simp [sendStart, hbusy, htext, htok, issue]
    · simp [agentQueryRequest, apiFetchRequest, htok, toBoolean]
  · exact ⟨_, step_refreshClick s hlive, rfl, rfl⟩
  · intro p hp
    exact ⟨_, step_selectProject s p hlive hp, rfl, rfl⟩
  · intro k hk hset
    exact ⟨_, step_selectKb_set s k hlive hk hset, rfl, rfl⟩
  · intro d hd hset
    exact ⟨_, step_selectDoc_set s d hlive hd hset, rfl, rfl⟩

theorem C15_authorization_header_witness :
    (({ scopedState with draft := "hello" } : ChatState).renderError = none ∧
      ({ scopedState with draft := "hello" } : ChatState).token ≠ "" ∧
      ({ scopedState with draft := "hello" } : ChatState).busy = false ∧
      jsTrim ({ scopedState with draft := "hello" } : ChatState).draft ≠ "") ∧
    ∃ s1, step .send { scopedState with draft := "hello" } = some s1 ∧
      s1.pending = [⟨.agentQuery, agentQueryRequest { scopedState with draft := "hello" } "hello"⟩] ∧
      (agentQueryRequest { scopedState with draft := "hello" } "hello").headers =
        [("Authorization", "Bearer tok"), ("Content-Type", "application/json")] :=
  ⟨⟨rfl, by decide, rfl, by decide⟩,
    (C15_authorization_header { scopedState with draft := "hello" } rfl (by decide)).1 rfl
      (by decide)⟩

/-! ## New chat -/

theorem step_newChat (s : ChatState) (hlive : s.renderError = none) :
    step .newChat s = some { s with messages := [newChatTurn] } := by
  have hh : handle .newChat s = { s with messages := [newChatTurn] } := by
    simp [handle, hlive]
  have := step_of_sameDeps .newChat s (by rw [hh]; simp [sameDeps])
  rw [hh] at this
  exact this

theorem run_newChat (n : Nat) (s : ChatState) (hlive : s.renderError = none) :
    run (List.replicate (n + 1) .newChat) s = some { s with messages := [newChatTurn] } := by
  induction n generalizing s with
  | zero => simp [run, step_newChat s hlive]
  | succ k ih =>
    rw [List.replicate_succ, run, step_newChat s hlive]
    simp only
    exact ih { s with messages := [newChatTurn] } hlive

/-- C16: for every state of the (live) page and every `n ≥ 1`, pressing "New
chat" `n` times in a row gives the same state as pressing it once: the
transcript is the single fixed assistant turn `New chat started. Ask away.`,
and everything else (the scope selection, the three lists, the token among
them) is as before. -/
theorem C16_reset_idempotent (s : ChatState) (n : Nat) (hlive : s.renderError = none)
    (hn : 1 ≤ n) :
    run (List.replicate n .newChat) s = step .newChat s ∧
    step .newChat s = some
      { s with
        messages := [{ role := .assistant, content := "New chat started. Ask away.",
                       meta := none }] } ∧
    ∃ s1, step .newChat s = some s1 ∧
      s1.selectedProjectId = s.selectedProjectId ∧ s1.selectedKbId = s.selectedKbId ∧
      s1.selectedDocId = s.selectedDocId ∧ s1.projects = s.projects ∧ s1.kbs = s.kbs ∧
      s1.documents = s.documents ∧ s1.token = s.token := by
  obtain ⟨k, hk⟩ : ∃ k, n = k + 1 := ⟨n - 1, by omega⟩
  subst hk
  refine ⟨?_, step_newChat s hlive, _, step_newChat s hlive, rfl, rfl, rfl, rfl, rfl, rfl, rfl⟩
  rw [run_newChat k s hlive, step_newChat s hlive]

theorem C16_reset_idempotent_witness :
    (scopedState.renderError = none ∧ 1 ≤ 3) ∧
    run (List.replicate 3 .newChat) scopedState = step .newChat scopedState ∧
    step .newChat scopedState = some
      { scopedState with
        messages := [{ role := .assistant, content := "New chat started. Ask away.",
                       meta := none }] } :=
  ⟨⟨rfl, by decide⟩,
    (C16_reset_idempotent scopedState 3 rfl (by decide)).1,
    (C16_reset_idempotent scopedState 3 rfl (by decide)).2.1⟩

end DocFoundry
